import Mathlib

set_option linter.unusedVariables false

/-!  Shallow embedding of `cachesim.cpp`: a two-level write-back cache
hierarchy (an L1 cache backed by an L2 cache, with an optional victim
cache between them) driven by a trace of reads and writes.  Machine
integers (`uint64_t`) are modelled as `Nat`; the source only forms
quotients and remainders, which agree with `Nat` arithmetic.  Each
operation additionally returns a list of events recording evictions,
write-back writes issued to the next level, fetches issued to the next
level, victim-cache insertions and line fills, so that cross-level
bookkeeping can be stated and checked.  -/

namespace CacheSim

/-- `Block`: one cache line (validity, dirty flag, tag, full address). -/
structure Block where
  valid : Bool
  dirty : Bool
  tag : Nat
  address : Nat
deriving DecidableEq

/-- The `Block()` default constructor: invalid, clean, zero tag and address. -/
def emptyBlock : Block := ⟨false, false, 0, 0⟩

instance : Inhabited Block := ⟨emptyBlock⟩

/-- `Block::operator==`: both blocks valid and the tags equal. -/
def blockEq (x y : Block) : Bool := x.valid && y.valid && (x.tag == y.tag)

/-- The scan predicate of every lookup loop in the source:
`block.valid && block.tag == tag`. -/
def tagMatch (tag : Nat) (x : Block) : Bool := x.valid && (x.tag == tag)

/-- `std::list<Block>::remove(b)`: removes every element comparing equal
to `b` under `Block::operator==`. -/
def listRemove (b : Block) (l : List Block) : List Block :=
  l.filter (fun x => ! blockEq x b)

/-- The counter fields of `cache_stats_t` that the simulator updates
(the derived floating-point field is not modelled). -/
structure Stats where
  reads : Nat
  writes : Nat
  accesses : Nat
  accesses_l2 : Nat
  accesses_vc : Nat
  read_misses_l1 : Nat
  read_misses_l2 : Nat
  write_misses_l1 : Nat
  write_misses_l2 : Nat
  write_back_l1 : Nat
  write_back_l2 : Nat
  victim_hits : Nat
deriving DecidableEq

def Stats.zero : Stats := ⟨0, 0, 0, 0, 0, 0, 0, 0, 0, 0, 0, 0⟩

/-- The `VictimCache` class: capacity in blocks, block size in bytes,
and the LRU-ordered block list (front = most recent). -/
structure VictimCache where
  numberOfBlocks : Nat
  blockSize : Nat
  blocks : List Block
deriving DecidableEq

/-- `VictimCache::VictimCache(v, b)`: block size `2^b`, `v` invalid blocks. -/
def VictimCache.init (v b : Nat) : VictimCache :=
  { numberOfBlocks := v, blockSize := 2 ^ b, blocks := List.replicate v emptyBlock }

/-- `VictimCache::read`: count the access, scan for a valid tag match;
on a match count a victim hit and remove the matching entry. -/
def vcRead (vc : VictimCache) (address : Nat) (st : Stats) :
    Bool × VictimCache × Stats :=
  let st := { st with accesses_vc := st.accesses_vc + 1 }
  let tag := address / vc.blockSize
  match vc.blocks.find? (tagMatch tag) with
  | some b =>
      (true, { vc with blocks := listRemove b vc.blocks },
       { st with victim_hits := st.victim_hits + 1 })
  | none => (false, vc, st)

/-- `VictimCache::insert`: drop the back entry when at capacity, then
push a new valid clean block at the front. -/
def vcInsert (vc : VictimCache) (address : Nat) : VictimCache :=
  let tag := address / vc.blockSize
  let blocks :=
    if vc.blocks.length == vc.numberOfBlocks then vc.blocks.dropLast else vc.blocks
  { vc with blocks := ⟨true, false, tag, address⟩ :: blocks }

/-- `VictimCache::insertInvalid`: push an invalid placeholder at the
back, only when below capacity. -/
def vcInsertInvalid (vc : VictimCache) : VictimCache :=
  if vc.blocks.length != vc.numberOfBlocks then
    { vc with blocks := vc.blocks ++ [emptyBlock] }
  else vc

/-- The per-level data of the `Cache` class: the sizes computed by the
constructor (`2^c`, `2^b`, `2^s`) and the array of sets, each an
LRU-ordered block list (front = most recent, back = LRU victim). -/
structure Cache where
  cacheSize : Nat
  blockSize : Nat
  associativity : Nat
  sets : List (List Block)
deriving DecidableEq

/-- `cacheSize / blockSize / associativity`, recomputed at each use in
the source. -/
def numberOfSets (c : Cache) : Nat := c.cacheSize / c.blockSize / c.associativity

/-- `Cache::Cache(id, c, b, s, ...)`: sizes `2^c`, `2^b`, `2^s`; every
set starts as `associativity` invalid blocks.  (The victim-cache and
next-level pointers are modelled in `Sys`.) -/
def Cache.mk0 (c b s : Nat) : Cache :=
  let cs := 2 ^ c
  let bs := 2 ^ b
  let a := 2 ^ s
  { cacheSize := cs, blockSize := bs, associativity := a,
    sets := List.replicate (cs / bs / a) (List.replicate a emptyBlock) }

/-- Events recording the externally visible actions of one operation.
The Boolean level flag is `true` for L1 and `false` for L2. -/
inductive Ev where
  /-- the LRU block popped from the back of a set at the given level -/
  | evict : Bool → Block → Ev
  /-- `memory->write(addr, p_stats, true)` issued from L1 to L2 for a
  dirty evicted block -/
  | wbWrite : Nat → Ev
  /-- `memory->read(addr, p_stats)` issued from L1 to L2 on a miss -/
  | fetch : Nat → Ev
  /-- `victimCache->insert(b.address)` for the evicted block `b` -/
  | vcPut : Block → Ev
  /-- `victimCache->insertInvalid()` -/
  | vcPad : Ev
  /-- the new line pushed at the front of a set at the given level -/
  | line : Bool → Block → Ev
deriving DecidableEq

/-- `Cache::read` for the L2 instance (`victimCache == nullptr`,
`memory == nullptr`, counters use the `_l2` fields). -/
def l2Read (c : Cache) (address : Nat) (st : Stats) :
    Cache × Stats × List Ev :=
  let st := { st with accesses_l2 := st.accesses_l2 + 1 }
  let ns := numberOfSets c
  let tag := address / c.blockSize / ns
  let index := address / c.blockSize % ns
  let blocks := c.sets.getD index []
  match blocks.find? (tagMatch tag) with
  | some b =>
      ({ c with sets := c.sets.set index (b :: listRemove b blocks) }, st, [])
  | none =>
      let st := { st with read_misses_l2 := st.read_misses_l2 + 1 }
      let b := blocks.getLastD emptyBlock
      let st := if b.dirty then { st with write_back_l2 := st.write_back_l2 + 1 } else st
      let nb : Block := ⟨true, false, tag, address⟩
      ({ c with sets := c.sets.set index (nb :: blocks.dropLast) }, st,
       [Ev.evict false b, Ev.line false nb])

/-- `Cache::write` for the L2 instance.  The `isWriteBack` flag only
affects (commented-out) debug output in the source. -/
def l2Write (c : Cache) (address : Nat) (isWriteBack : Bool) (st : Stats) :
    Cache × Stats × List Ev :=
  let st := { st with accesses_l2 := st.accesses_l2 + 1 }
  let ns := numberOfSets c
  let tag := address / c.blockSize / ns
  let index := address / c.blockSize % ns
  let blocks := c.sets.getD index []
  match blocks.find? (tagMatch tag) with
  | some b =>
      ({ c with sets := c.sets.set index ({ b with dirty := true } :: listRemove b blocks) },
       st, [])
  | none =>
      let st := { st with write_misses_l2 := st.write_misses_l2 + 1 }
      let b := blocks.getLastD emptyBlock
      let st := if b.dirty then { st with write_back_l2 := st.write_back_l2 + 1 } else st
      let nb : Block := ⟨true, true, tag, address⟩
      ({ c with sets := c.sets.set index (nb :: blocks.dropLast) }, st,
       [Ev.evict false b, Ev.line false nb])

/-- The full simulator state: the L1 cache, its optional victim cache,
and the L2 cache it is backed by. -/
structure Sys where
  l1 : Cache
  vc : Option VictimCache
  l2 : Cache
deriving DecidableEq

/-- The shared tail of the L1 miss paths of `Cache::read` and
`Cache::write` (both the victim-hit branch and the fill-from-L2
branch): pop the LRU block of the selected set, write it back to L2 if
dirty (counting `write_back_l1`), hand it to the victim cache when one
is present (`insert` if valid, `insertInvalid` otherwise), and push the
new line at the front.  `newDirty` is `false` for a read fill and
`true` for a write fill. -/
def l1Replace (c : Cache) (vcOpt : Option VictimCache) (l2 : Cache)
    (tag index address : Nat) (newDirty : Bool) (st : Stats) :
    Sys × Stats × List Ev :=
  let blocks := c.sets.getD index []
  let b := blocks.getLastD emptyBlock
  let p :=
    if b.dirty then
      let st := { st with write_back_l1 := st.write_back_l1 + 1 }
      let q := l2Write l2 b.address true st
      (q.1, q.2.1, Ev.wbWrite b.address :: q.2.2)
    else (l2, st, ([] : List Ev))
  let v : Option VictimCache × List Ev :=
    match vcOpt with
    | some vc =>
        if b.valid then (some (vcInsert vc b.address), [Ev.vcPut b])
        else (some (vcInsertInvalid vc), [Ev.vcPad])
    | none => (none, [])
  let nb : Block := ⟨true, newDirty, tag, address⟩
  (⟨{ c with sets := c.sets.set index (nb :: blocks.dropLast) }, v.1, p.1⟩,
   p.2.1, Ev.evict true b :: p.2.2 ++ v.2 ++ [Ev.line true nb])

/-- `Cache::read` for the L1 instance (optional victim cache, `memory`
pointing at L2). -/
def l1Read (sys : Sys) (address : Nat) (st : Stats) :
    Sys × Stats × List Ev :=
  let st := { st with accesses := st.accesses + 1 }
  let c := sys.l1
  let ns := numberOfSets c
  let tag := address / c.blockSize / ns
  let index := address / c.blockSize % ns
  let blocks := c.sets.getD index []
  match blocks.find? (tagMatch tag) with
  | some b =>
      (⟨{ c with sets := c.sets.set index (b :: listRemove b blocks) }, sys.vc, sys.l2⟩,
       st, [])
  | none =>
      let st := { st with read_misses_l1 := st.read_misses_l1 + 1 }
      match sys.vc with
      | some vc =>
          let pr := vcRead vc address st
          if pr.1 then
            l1Replace c (some pr.2.1) sys.l2 tag index address false pr.2.2
          else
            let m := l2Read sys.l2 address pr.2.2
            let r := l1Replace c (some pr.2.1) m.1 tag index address false m.2.1
            (r.1, r.2.1, Ev.fetch address :: m.2.2 ++ r.2.2)
      | none =>
          let m := l2Read sys.l2 address st
          let r := l1Replace c none m.1 tag index address false m.2.1
          (r.1, r.2.1, Ev.fetch address :: m.2.2 ++ r.2.2)

/-- `Cache::write` for the L1 instance.  On a hit the matching block is
re-inserted dirty; a miss fill inserts a dirty line. -/
def l1Write (sys : Sys) (address : Nat) (st : Stats) :
    Sys × Stats × List Ev :=
  let st := { st with accesses := st.accesses + 1 }
  let c := sys.l1
  let ns := numberOfSets c
  let tag := address / c.blockSize / ns
  let index := address / c.blockSize % ns
  let blocks := c.sets.getD index []
  match blocks.find? (tagMatch tag) with
  | some b =>
      (⟨{ c with sets := c.sets.set index ({ b with dirty := true } :: listRemove b blocks) },
        sys.vc, sys.l2⟩, st, [])
  | none =>
      let st := { st with write_misses_l1 := st.write_misses_l1 + 1 }
      match sys.vc with
      | some vc =>
          let pr := vcRead vc address st
          if pr.1 then
            l1Replace c (some pr.2.1) sys.l2 tag index address true pr.2.2
          else
            let m := l2Read sys.l2 address pr.2.2
            let r := l1Replace c (some pr.2.1) m.1 tag index address true m.2.1
            (r.1, r.2.1, Ev.fetch address :: m.2.2 ++ r.2.2)
      | none =>
          let m := l2Read sys.l2 address st
          let r := l1Replace c none m.1 tag index address true m.2.1
          (r.1, r.2.1, Ev.fetch address :: m.2.2 ++ r.2.2)

/-- `cache_access`: count the trace event kind and dispatch to L1. -/
def cacheAccess (isWrite : Bool) (address : Nat) (sys : Sys) (st : Stats) :
    Sys × Stats × List Ev :=
  if isWrite then l1Write sys address { st with writes := st.writes + 1 }
  else l1Read sys address { st with reads := st.reads + 1 }

/-- `setup_cache`: construct L2 first (terminal, no victim cache), then
L1 with a victim cache of `v` blocks of size `2^b1` when `v != 0`. -/
def setup_cache (c1 b1 s1 v c2 b2 s2 : Nat) : Sys :=
  { l1 := Cache.mk0 c1 b1 s1,
    vc := if v == 0 then none else some (VictimCache.init v b1),
    l2 := Cache.mk0 c2 b2 s2 }

/-- Run a trace of `(isWrite, address)` events, concatenating logs. -/
def runTrace (sys : Sys) (st : Stats) : List (Bool × Nat) → Sys × Stats × List Ev
  | [] => (sys, st, [])
  | op :: rest =>
      let r := cacheAccess op.1 op.2 sys st
      let q := runTrace r.1 r.2.1 rest
      (q.1, q.2.1, r.2.2 ++ q.2.2)

/-- Event classifiers used to state cross-level bookkeeping. -/
def isWbEv : Ev → Bool
  | .wbWrite _ => true
  | _ => false

def isDirtyEvictL1 : Ev → Bool
  | .evict true b => b.dirty
  | _ => false

def isDirtyAbsorb : Ev → Bool
  | .vcPut b => b.dirty
  | _ => false

def isFetchEv : Ev → Bool
  | .fetch _ => true
  | _ => false

/-- Number of write-back writes issued from L1 to L2 in a log. -/
def countWbL1 (l : List Ev) : Nat := l.countP isWbEv

/-- Number of dirty LRU evictions at L1 in a log. -/
def countDirtyEvictL1 (l : List Ev) : Nat := l.countP isDirtyEvictL1

/-- Number of dirty evicted blocks absorbed by the victim cache. -/
def countDirtyAbsorb (l : List Ev) : Nat := l.countP isDirtyAbsorb

/-- Relation between two blocks of one LRU list: no two valid blocks
share a tag. -/
def TagOk (x y : Block) : Prop := x.valid = true → y.valid = true → x.tag ≠ y.tag

/-- Distinct valid tags along a block list. -/
def dvt (l : List Block) : Prop := l.Pairwise TagOk

/-- A valid block's stored address decomposes into its tag and the
index of the set holding it. -/
def goodBlock (bs ns i : Nat) (b : Block) : Prop :=
  b.valid = true → b.address / bs = b.tag * ns + i

/-- A well-formed set: full length, distinct valid tags, and addresses
consistent with tag and index. -/
def goodSet (assoc bs ns i : Nat) (l : List Block) : Prop :=
  l.length = assoc ∧ dvt l ∧ ∀ b ∈ l, goodBlock bs ns i b

/-- Well-formedness of one cache level. -/
def cacheWf (c : Cache) : Prop :=
  0 < c.associativity ∧
  c.sets.length = numberOfSets c ∧
  ∀ i, i < c.sets.length →
    goodSet c.associativity c.blockSize (numberOfSets c) i (c.sets.getD i [])

/-- No valid victim-cache entry aliases a block resident in L1. -/
def vcDisj (c : Cache) (vc : VictimCache) : Prop :=
  ∀ e ∈ vc.blocks, e.valid = true →
    ∀ i, i < c.sets.length → ∀ y ∈ c.sets.getD i [], y.valid = true →
      y.address / c.blockSize ≠ e.tag

/-- Well-formedness of the victim cache relative to its L1 owner. -/
def vcWf (c : Cache) (vc : VictimCache) : Prop :=
  0 < vc.numberOfBlocks ∧
  vc.blocks.length = vc.numberOfBlocks ∧
  dvt vc.blocks ∧
  vc.blockSize = c.blockSize ∧
  vcDisj c vc

/-- Well-formedness of the whole simulator state. -/
def SysWf (sys : Sys) : Prop :=
  cacheWf sys.l1 ∧ cacheWf sys.l2 ∧ ∀ vc, sys.vc = some vc → vcWf sys.l1 vc

/-- Precondition under which `l1Replace` is invoked on the victim
cache: possibly one entry was just removed by the probe, and no
remaining valid entry carries the tag of the requested address. -/
def vcPre (c : Cache) (a : Nat) : Option VictimCache → Prop
  | none => True
  | some vc =>
      0 < vc.numberOfBlocks ∧
      (vc.blocks.length = vc.numberOfBlocks ∨ vc.blocks.length + 1 = vc.numberOfBlocks) ∧
      dvt vc.blocks ∧ vc.blockSize = c.blockSize ∧ vcDisj c vc ∧
      (∀ e ∈ vc.blocks, e.valid = true → e.tag ≠ a / c.blockSize)

/-- Repeated `l1Read` of one address (the LRU-window scenario). -/
def readsRepeat (a : Nat) : Nat → Sys × Stats → Sys × Stats
  | 0, p => p
  | n + 1, p =>
      let r := l1Read p.1 a p.2
      readsRepeat a n (r.1, r.2.1)

/-! ### List and arithmetic helpers -/

theorem getD_set_ne {α : Type} (l : List α) (i j : Nat) (x d : α) (h : i ≠ j) :
    (l.set i x).getD j d = l.getD j d := by
  simp [List.getD_eq_getElem?_getD, List.getElem?_set_ne h]

theorem getD_set_self {α : Type} (l : List α) (i : Nat) (x d : α) (h : i < l.length) :
    (l.set i x).getD i d = x := by
  simp [List.getD_eq_getElem?_getD, List.getElem?_set_self, h]

theorem getLastD_eq_getLast (l : List Block) (d : Block) (h : l ≠ []) :
    l.getLastD d = l.getLast h := by
  cases l with
  | nil => exact absurd rfl h
  | cons a as => simp [List.getLastD_eq_getLast?, List.getLast?_eq_getLast]

theorem getLastD_mem (l : List Block) (d : Block) (h : l ≠ []) : l.getLastD d ∈ l := by
  rw [getLastD_eq_getLast l d h]
  exact List.getLast_mem h

theorem dropLast_append_getLastD (l : List Block) (d : Block) (h : l ≠ []) :
    l.dropLast ++ [l.getLastD d] = l := by
  rw [getLastD_eq_getLast l d h]
  exact List.dropLast_append_getLast h

theorem tagMatch_eq_true {tg : Nat} {x : Block} :
    tagMatch tg x = true ↔ x.valid = true ∧ x.tag = tg := by
  simp [tagMatch]

theorem find?_none_valid {l : List Block} {tg : Nat}
    (h : l.find? (tagMatch tg) = none) :
    ∀ x ∈ l, x.valid = true → x.tag ≠ tg := by
  intro x hx hv
  have hnm := List.find?_eq_none.mp h x hx
  simp [tagMatch, hv] at hnm
  exact hnm

theorem mem_of_mem_listRemove {b x : Block} {l : List Block}
    (h : x ∈ listRemove b l) : x ∈ l :=
  List.mem_of_mem_filter h

theorem listRemove_no_match {b x : Block} {l : List Block} (hb : b.valid = true)
    (h : x ∈ listRemove b l) (hx : x.valid = true) : x.tag ≠ b.tag := by
  have hp := List.of_mem_filter h
  simp [blockEq, hb, hx] at hp
  exact hp

theorem dvt_listRemove {b : Block} {l : List Block} (h : dvt l) :
    dvt (listRemove b l) :=
  h.sublist (List.filter_sublist l)

theorem dvt_dropLast {l : List Block} (h : dvt l) : dvt l.dropLast :=
  h.sublist (List.dropLast_sublist l)

theorem listRemove_length {l : List Block} (hd : dvt l) {b : Block} (hb : b ∈ l)
    (hv : b.valid = true) : (listRemove b l).length + 1 = l.length := by
  induction l with
  | nil => cases hb
  | cons x xs ih =>
    have hd' := (List.pairwise_cons.mp hd)
    rcases List.mem_cons.mp hb with rfl | hmem
    · have hx : blockEq b b = true := by simp [blockEq, hv]
      have hall : ∀ y ∈ xs, (fun z => ! blockEq z b) y = true := by
        intro y hy
        by_cases hyv : y.valid = true
        · simp only [Bool.not_eq_true', blockEq, hyv, hv, Bool.true_and, beq_eq_false_iff_ne]
          intro he
          exact (hd'.1 y hy hv hyv) he.symm
        · simp [blockEq, Bool.eq_false_iff.mpr hyv]
      unfold listRemove
      rw [List.filter_cons_of_neg (by simp [hx]), List.filter_eq_self.mpr hall]
      simp
    · have hbx : blockEq x b = false := by
        by_cases hxv : x.valid = true
        · simp only [blockEq, hxv, hv, Bool.true_and, beq_eq_false_iff_ne]
          exact hd'.1 b hmem hxv hv
        · simp [blockEq, Bool.eq_false_iff.mpr hxv]
      unfold listRemove
      rw [List.filter_cons_of_pos (by simp [hbx])]
      have hih := ih (List.pairwise_cons.mp hd).2 hmem
      unfold listRemove at hih
      simp only [List.length_cons]
      omega

/-- Two slots `(tag, index)` with indices below the set count denote
different block numbers unless equal. -/
theorem slot_ne {t1 i1 t2 i2 ns : Nat} (h1 : i1 < ns) (h2 : i2 < ns)
    (hne : t1 ≠ t2 ∨ i1 ≠ i2) : t1 * ns + i1 ≠ t2 * ns + i2 := by
  intro h
  have e1 : (t1 * ns + i1) % ns = i1 := by
    rw [Nat.add_comm, Nat.add_mul_mod_self_right]
    exact Nat.mod_eq_of_lt h1
  have e2 : (t2 * ns + i2) % ns = i2 := by
    rw [Nat.add_comm, Nat.add_mul_mod_self_right]
    exact Nat.mod_eq_of_lt h2
  have hi : i1 = i2 := by rw [← e1, ← e2, h]
  subst hi
  have ht : t1 = t2 := by
    have hmul : t1 * ns = t2 * ns := by omega
    exact Nat.eq_of_mul_eq_mul_right (Nat.lt_of_le_of_lt (Nat.zero_le _) h1) hmul
  rcases hne with h' | h' <;> exact h' (by omega)

theorem getD_of_length_le {α : Type} (l : List α) (i : Nat) (d : α)
    (h : l.length ≤ i) : l.getD i d = d := by
  simp [List.getD_eq_getElem?_getD, List.getElem?_eq_none h]

theorem dvt_replicate_empty (n : Nat) : dvt (List.replicate n emptyBlock) := by
  induction n with
  | zero => exact List.Pairwise.nil
  | succ k ih =>
    rw [List.replicate_succ]
    refine List.pairwise_cons.mpr ⟨?_, ih⟩
    intro y hy hv
    simp [emptyBlock] at hv

/-- The new line inserted on any miss satisfies the address equation. -/
theorem newBlock_good (bs ns a : Nat) (d : Bool) :
    goodBlock bs ns (a / bs % ns) ⟨true, d, a / bs / ns, a⟩ := by
  intro _
  show a / bs = a / bs / ns * ns + a / bs % ns
  rw [Nat.mul_comm]
  exact (Nat.div_add_mod (a / bs) ns).symm

/-! ### Per-set preservation lemmas -/

/-- A hit rebuilds the set as `found-block :: remove found-block`,
possibly with the dirty flag of the re-inserted copy changed. -/
theorem hitSet_good {assoc bs ns i tg : Nat} {l : List Block} {b b' : Block}
    (h : goodSet assoc bs ns i l) (hf : l.find? (tagMatch tg) = some b)
    (hv : b'.valid = b.valid) (ht : b'.tag = b.tag) (ha : b'.address = b.address) :
    goodSet assoc bs ns i (b' :: listRemove b l) := by
  obtain ⟨hlen, hdvt, hgood⟩ := h
  have hbv : b.valid = true := (tagMatch_eq_true.mp (List.find?_some hf)).1
  have hbmem : b ∈ l := List.mem_of_find?_eq_some hf
  refine ⟨?_, ?_, ?_⟩
  · rw [List.length_cons, listRemove_length hdvt hbmem hbv]
    exact hlen
  · refine List.pairwise_cons.mpr ⟨?_, dvt_listRemove hdvt⟩
    intro y hy hb'v hyv
    rw [ht]
    intro he
    exact (listRemove_no_match hbv hy hyv) he.symm
  · intro x hx
    rcases List.mem_cons.mp hx with rfl | hx'
    · intro hv'
      have hgb := hgood b hbmem (by rw [← hv]; exact hv')
      rw [ha, ht]
      exact hgb
    · exact hgood x (mem_of_mem_listRemove hx')

/-- A miss rebuilds the set as `new-line :: dropLast`. -/
theorem missSet_good {assoc bs ns i tg : Nat} {l : List Block} {nb : Block}
    (h : goodSet assoc bs ns i l) (ha : 0 < assoc)
    (hm : l.find? (tagMatch tg) = none)
    (hnbt : nb.tag = tg) (hnb : goodBlock bs ns i nb) :
    goodSet assoc bs ns i (nb :: l.dropLast) := by
  obtain ⟨hlen, hdvt, hgood⟩ := h
  refine ⟨?_, ?_, ?_⟩
  · rw [List.length_cons, List.length_dropLast, hlen]
    omega
  · refine List.pairwise_cons.mpr ⟨?_, dvt_dropLast hdvt⟩
    intro y hy hnbv hyv
    rw [hnbt]
    intro he
    exact (find?_none_valid hm y (List.dropLast_subset l hy) hyv) he.symm
  · intro x hx
    rcases List.mem_cons.mp hx with rfl | hx'
    · exact hnb
    · exact hgood x (List.dropLast_subset l hx')

/-- Updating one set with a well-formed replacement preserves `cacheWf`. -/
theorem cacheWf_set {c : Cache} (hc : cacheWf c) {idx : Nat} {s' : List Block}
    (hs' : goodSet c.associativity c.blockSize (numberOfSets c) idx s') :
    cacheWf { c with sets := c.sets.set idx s' } := by
  obtain ⟨ha, hlen, hgood⟩ := hc
  refine ⟨ha, ?_, ?_⟩
  · show (c.sets.set idx s').length = numberOfSets c
    rw [List.length_set]
    exact hlen
  · intro i hi
    simp only [List.length_set] at hi
    by_cases hii : i = idx
    · subst hii
      show goodSet c.associativity c.blockSize (numberOfSets c) i
        ((c.sets.set i s').getD i [])
      rw [getD_set_self _ _ _ _ hi]
      exact hs'
    · show goodSet c.associativity c.blockSize (numberOfSets c) i
        ((c.sets.set idx s').getD i [])
      rw [getD_set_ne _ _ _ _ _ (fun he => hii he.symm)]
      exact hgood i hi

/-! ### L2 operation lemmas -/

theorem l2Read_wf {c : Cache} (hc : cacheWf c) (a : Nat) (st : Stats) :
    cacheWf (l2Read c a st).1 := by
  cases hf : (c.sets.getD (a / c.blockSize % numberOfSets c) []).find?
      (tagMatch (a / c.blockSize / numberOfSets c)) with
  | some b =>
    have hidx : a / c.blockSize % numberOfSets c < c.sets.length := by
      by_contra hge
      push_neg at hge
      rw [getD_of_length_le _ _ _ hge] at hf
      simp at hf
    simp only [l2Read, hf]
    exact cacheWf_set hc (hitSet_good (hc.2.2 _ hidx) hf rfl rfl rfl)
  | none =>
    by_cases hidx : a / c.blockSize % numberOfSets c < c.sets.length
    · simp only [l2Read, hf]
      exact cacheWf_set hc
        (missSet_good (hc.2.2 _ hidx) hc.1 hf rfl (newBlock_good _ _ _ _))
    · push_neg at hidx
      simp only [l2Read, hf]
      rw [List.set_eq_of_length_le hidx]
      exact hc

theorem l2Write_wf {c : Cache} (hc : cacheWf c) (a : Nat) (wb : Bool) (st : Stats) :
    cacheWf (l2Write c a wb st).1 := by
  cases hf : (c.sets.getD (a / c.blockSize % numberOfSets c) []).find?
      (tagMatch (a / c.blockSize / numberOfSets c)) with
  | some b =>
    have hidx : a / c.blockSize % numberOfSets c < c.sets.length := by
      by_contra hge
      push_neg at hge
      rw [getD_of_length_le _ _ _ hge] at hf
      simp at hf
    simp only [l2Write, hf]
    exact cacheWf_set hc (hitSet_good (hc.2.2 _ hidx) hf rfl rfl rfl)
  | none =>
    by_cases hidx : a / c.blockSize % numberOfSets c < c.sets.length
    · simp only [l2Write, hf]
      exact cacheWf_set hc
        (missSet_good (hc.2.2 _ hidx) hc.1 hf rfl (newBlock_good _ _ _ _))
    · push_neg at hidx
      simp only [l2Write, hf]
      rw [List.set_eq_of_length_le hidx]
      exact hc

/-- L2 operations only touch the sets array; the size parameters and the
set count are untouched. -/
theorem l2Read_geom (c : Cache) (a : Nat) (st : Stats) :
    (l2Read c a st).1.cacheSize = c.cacheSize ∧
    (l2Read c a st).1.blockSize = c.blockSize ∧
    (l2Read c a st).1.associativity = c.associativity ∧
    (l2Read c a st).1.sets.length = c.sets.length := by
  cases hf : (c.sets.getD (a / c.blockSize % numberOfSets c) []).find?
      (tagMatch (a / c.blockSize / numberOfSets c)) with
  | some b =>
    simp only [l2Read, hf]
    simp [List.length_set]
  | none =>
    simp only [l2Read, hf]
    simp [List.length_set]

theorem l2Write_geom (c : Cache) (a : Nat) (wb : Bool) (st : Stats) :
    (l2Write c a wb st).1.cacheSize = c.cacheSize ∧
    (l2Write c a wb st).1.blockSize = c.blockSize ∧
    (l2Write c a wb st).1.associativity = c.associativity ∧
    (l2Write c a wb st).1.sets.length = c.sets.length := by
  cases hf : (c.sets.getD (a / c.blockSize % numberOfSets c) []).find?
      (tagMatch (a / c.blockSize / numberOfSets c)) with
  | some b =>
    simp only [l2Write, hf]
    simp [List.length_set]
  | none =>
    simp only [l2Write, hf]
    simp [List.length_set]

/-- L2 operations never touch the L1, victim-cache, or trace counters. -/
theorem l2Read_stats (c : Cache) (a : Nat) (st : Stats) :
    (l2Read c a st).2.1.reads = st.reads ∧
    (l2Read c a st).2.1.writes = st.writes ∧
    (l2Read c a st).2.1.accesses = st.accesses ∧
    (l2Read c a st).2.1.accesses_vc = st.accesses_vc ∧
    (l2Read c a st).2.1.read_misses_l1 = st.read_misses_l1 ∧
    (l2Read c a st).2.1.write_misses_l1 = st.write_misses_l1 ∧
    (l2Read c a st).2.1.write_back_l1 = st.write_back_l1 ∧
    (l2Read c a st).2.1.victim_hits = st.victim_hits := by
  cases hf : (c.sets.getD (a / c.blockSize % numberOfSets c) []).find?
      (tagMatch (a / c.blockSize / numberOfSets c)) with
  | some b =>
    simp only [l2Read, hf]
    simp
  | none =>
    simp only [l2Read, hf]
    split <;> simp

theorem l2Write_stats (c : Cache) (a : Nat) (wb : Bool) (st : Stats) :
    (l2Write c a wb st).2.1.reads = st.reads ∧
    (l2Write c a wb st).2.1.writes = st.writes ∧
    (l2Write c a wb st).2.1.accesses = st.accesses ∧
    (l2Write c a wb st).2.1.accesses_vc = st.accesses_vc ∧
    (l2Write c a wb st).2.1.read_misses_l1 = st.read_misses_l1 ∧
    (l2Write c a wb st).2.1.write_misses_l1 = st.write_misses_l1 ∧
    (l2Write c a wb st).2.1.write_back_l1 = st.write_back_l1 ∧
    (l2Write c a wb st).2.1.victim_hits = st.victim_hits := by
  cases hf : (c.sets.getD (a / c.blockSize % numberOfSets c) []).find?
      (tagMatch (a / c.blockSize / numberOfSets c)) with
  | some b =>
    simp only [l2Write, hf]
    simp
  | none =>
    simp only [l2Write, hf]
    split <;> simp

/-- Every event an L2 operation emits is an L2 eviction or an L2 fill. -/
theorem l2Read_log (c : Cache) (a : Nat) (st : Stats) :
    ∀ e ∈ (l2Read c a st).2.2,
      (∃ bb, e = Ev.evict false bb) ∨ (∃ bb, e = Ev.line false bb) := by
  cases hf : (c.sets.getD (a / c.blockSize % numberOfSets c) []).find?
      (tagMatch (a / c.blockSize / numberOfSets c)) with
  | some b =>
    simp only [l2Read, hf]
    simp
  | none =>
    simp only [l2Read, hf]
    intro e he
    rcases List.mem_cons.mp he with rfl | he'
    · exact Or.inl ⟨_, rfl⟩
    · rcases List.mem_singleton.mp he' with rfl
      exact Or.inr ⟨_, rfl⟩

theorem l2Write_log (c : Cache) (a : Nat) (wb : Bool) (st : Stats) :
    ∀ e ∈ (l2Write c a wb st).2.2,
      (∃ bb, e = Ev.evict false bb) ∨ (∃ bb, e = Ev.line false bb) := by
  cases hf : (c.sets.getD (a / c.blockSize % numberOfSets c) []).find?
      (tagMatch (a / c.blockSize / numberOfSets c)) with
  | some b =>
    simp only [l2Write, hf]
    simp
  | none =>
    simp only [l2Write, hf]
    intro e he
    rcases List.mem_cons.mp he with rfl | he'
    · exact Or.inl ⟨_, rfl⟩
    · rcases List.mem_singleton.mp he' with rfl
      exact Or.inr ⟨_, rfl⟩

/-! ### Victim-cache operation lemmas -/

theorem vcInsertInvalid_numberOfBlocks (vc : VictimCache) :
    (vcInsertInvalid vc).numberOfBlocks = vc.numberOfBlocks := by
  unfold vcInsertInvalid
  split <;> rfl

theorem vcInsertInvalid_blockSize (vc : VictimCache) :
    (vcInsertInvalid vc).blockSize = vc.blockSize := by
  unfold vcInsertInvalid
  split <;> rfl

theorem vcInsertInvalid_length {vc : VictimCache}
    (h : vc.blocks.length = vc.numberOfBlocks ∨
      vc.blocks.length + 1 = vc.numberOfBlocks) :
    (vcInsertInvalid vc).blocks.length = vc.numberOfBlocks := by
  unfold vcInsertInvalid
  rcases h with h | h
  · rw [if_neg (by simp [h])]
    exact h
  · rw [if_pos (by simp; omega)]
    simp [h]

theorem vcInsertInvalid_dvt {vc : VictimCache} (h : dvt vc.blocks) :
    dvt (vcInsertInvalid vc).blocks := by
  unfold vcInsertInvalid
  split
  · refine List.pairwise_append.mpr ⟨h, List.pairwise_singleton _ _, ?_⟩
    intro x _ y hy
    rcases List.mem_singleton.mp hy with rfl
    intro _ hv
    simp [emptyBlock] at hv
  · exact h

theorem mem_vcInsertInvalid_valid {vc : VictimCache} {e : Block}
    (he : e ∈ (vcInsertInvalid vc).blocks) (hv : e.valid = true) :
    e ∈ vc.blocks := by
  unfold vcInsertInvalid at he
  split at he
  · rcases List.mem_append.mp he with h' | h'
    · exact h'
    · rcases List.mem_singleton.mp h' with rfl
      simp [emptyBlock] at hv
  · exact he

theorem vcInsert_numberOfBlocks (vc : VictimCache) (a : Nat) :
    (vcInsert vc a).numberOfBlocks = vc.numberOfBlocks := rfl

theorem vcInsert_blockSize (vc : VictimCache) (a : Nat) :
    (vcInsert vc a).blockSize = vc.blockSize := rfl

theorem vcInsert_length {vc : VictimCache} (a : Nat) (hcap : 0 < vc.numberOfBlocks)
    (h : vc.blocks.length = vc.numberOfBlocks ∨
      vc.blocks.length + 1 = vc.numberOfBlocks) :
    (vcInsert vc a).blocks.length = vc.numberOfBlocks := by
  unfold vcInsert
  rcases h with h | h
  · simp only [h, beq_self_eq_true, if_true, List.length_cons, List.length_dropLast]
    omega
  · have hne : (vc.blocks.length == vc.numberOfBlocks) = false := by simp; omega
    simp only [hne, Bool.false_eq_true, if_false, List.length_cons]
    exact h

theorem mem_vcInsert {vc : VictimCache} {a : Nat} {e : Block}
    (he : e ∈ (vcInsert vc a).blocks) :
    e = ⟨true, false, a / vc.blockSize, a⟩ ∨ e ∈ vc.blocks := by
  unfold vcInsert at he
  rcases List.mem_cons.mp he with rfl | h'
  · exact Or.inl rfl
  · right
    split at h'
    · exact List.dropLast_subset _ h'
    · exact h'

/-- Membership in a set updated by `List.set idx (nb :: rest)`. -/
theorem mem_new_set {c : Cache} {idx : Nat} (hidx : idx < c.sets.length)
    {nb : Block} {rest : List Block} {i : Nat} (hi : i < c.sets.length) {y : Block}
    (hy : y ∈ (c.sets.set idx (nb :: rest)).getD i []) :
    (i = idx ∧ (y = nb ∨ y ∈ rest)) ∨ (i ≠ idx ∧ y ∈ c.sets.getD i []) := by
  by_cases hii : i = idx
  · subst hii
    rw [getD_set_self _ _ _ _ hidx] at hy
    exact Or.inl ⟨rfl, List.mem_cons.mp hy⟩
  · rw [getD_set_ne _ _ _ _ _ (fun he => hii he.symm)] at hy
    exact Or.inr ⟨hii, hy⟩

/-! ### Characterization of `l1Replace` -/

theorem l1Replace_l1 (c : Cache) (vcOpt : Option VictimCache) (l2 : Cache)
    (tg idx a : Nat) (nd : Bool) (st : Stats) :
    (l1Replace c vcOpt l2 tg idx a nd st).1.l1 =
      { c with sets := (c.sets.set idx
          (⟨true, nd, tg, a⟩ :: (c.sets.getD idx []).dropLast)) } := by
  unfold l1Replace
  rfl

theorem l1Replace_l2 (c : Cache) (vcOpt : Option VictimCache) (l2 : Cache)
    (tg idx a : Nat) (nd : Bool) (st : Stats) :
    (l1Replace c vcOpt l2 tg idx a nd st).1.l2 =
      (if ((c.sets.getD idx []).getLastD emptyBlock).dirty then
        (l2Write l2 ((c.sets.getD idx []).getLastD emptyBlock).address true
          { st with write_back_l1 := st.write_back_l1 + 1 }).1
      else l2) := by
  by_cases hd : ((c.sets.getD idx []).getLastD emptyBlock).dirty = true <;>
    simp only [l1Replace, hd] <;> simp

theorem l1Replace_vc (c : Cache) (vcOpt : Option VictimCache) (l2 : Cache)
    (tg idx a : Nat) (nd : Bool) (st : Stats) :
    (l1Replace c vcOpt l2 tg idx a nd st).1.vc =
      (match vcOpt with
       | some vc =>
          some (if ((c.sets.getD idx []).getLastD emptyBlock).valid then
            vcInsert vc ((c.sets.getD idx []).getLastD emptyBlock).address
          else vcInsertInvalid vc)
       | none => none) := by
  cases vcOpt with
  | none => rfl
  | some vc =>
    by_cases hv : ((c.sets.getD idx []).getLastD emptyBlock).valid = true <;>
      simp only [l1Replace, hv] <;> simp

theorem l1Replace_log (c : Cache) (vcOpt : Option VictimCache) (l2 : Cache)
    (tg idx a : Nat) (nd : Bool) (st : Stats) :
    (l1Replace c vcOpt l2 tg idx a nd st).2.2 =
      Ev.evict true ((c.sets.getD idx []).getLastD emptyBlock) ::
        (if ((c.sets.getD idx []).getLastD emptyBlock).dirty then
          Ev.wbWrite ((c.sets.getD idx []).getLastD emptyBlock).address ::
            (l2Write l2 ((c.sets.getD idx []).getLastD emptyBlock).address true
              { st with write_back_l1 := st.write_back_l1 + 1 }).2.2
        else []) ++
        (match vcOpt with
         | some vc =>
            if ((c.sets.getD idx []).getLastD emptyBlock).valid then
              [Ev.vcPut ((c.sets.getD idx []).getLastD emptyBlock)]
            else [Ev.vcPad]
         | none => []) ++ [Ev.line true ⟨true, nd, tg, a⟩] := by
  cases vcOpt with
  | none =>
    by_cases hd : ((c.sets.getD idx []).getLastD emptyBlock).dirty = true <;>
      simp only [l1Replace, hd] <;> simp
  | some vc =>
    by_cases hd : ((c.sets.getD idx []).getLastD emptyBlock).dirty = true <;>
      by_cases hv : ((c.sets.getD idx []).getLastD emptyBlock).valid = true <;>
        simp only [l1Replace, hd, hv] <;> simp

theorem l1Replace_stats (c : Cache) (vcOpt : Option VictimCache) (l2 : Cache)
    (tg idx a : Nat) (nd : Bool) (st : Stats) :
    (l1Replace c vcOpt l2 tg idx a nd st).2.1 =
      (if ((c.sets.getD idx []).getLastD emptyBlock).dirty then
        (l2Write l2 ((c.sets.getD idx []).getLastD emptyBlock).address true
          { st with write_back_l1 := st.write_back_l1 + 1 }).2.1
      else st) := by
  by_cases hd : ((c.sets.getD idx []).getLastD emptyBlock).dirty = true <;>
    simp only [l1Replace, hd] <;> simp

/-! ### Preservation of `SysWf` by `l1Replace` -/

theorem l1Replace_wf_l1 {c : Cache} (vcOpt : Option VictimCache) (l2 : Cache)
    {tg idx a : Nat} (nd : Bool) (st : Stats)
    (hc : cacheWf c)
    (htg : tg = a / c.blockSize / numberOfSets c)
    (hidx : idx = a / c.blockSize % numberOfSets c)
    (hm : (c.sets.getD idx []).find? (tagMatch tg) = none) :
    cacheWf (l1Replace c vcOpt l2 tg idx a nd st).1.l1 := by
  rw [l1Replace_l1]
  by_cases hlt : idx < c.sets.length
  · refine cacheWf_set hc (missSet_good (hc.2.2 _ hlt) hc.1 hm rfl ?_)
    subst htg hidx
    exact newBlock_good _ _ _ _
  · push_neg at hlt
    rw [List.set_eq_of_length_le hlt]
    exact hc

theorem l1Replace_wf_l2 (c : Cache) (vcOpt : Option VictimCache) {l2 : Cache}
    (tg idx a : Nat) (nd : Bool) (st : Stats) (hl2 : cacheWf l2) :
    cacheWf (l1Replace c vcOpt l2 tg idx a nd st).1.l2 := by
  rw [l1Replace_l2]
  split
  · exact l2Write_wf hl2 _ _ _
  · exact hl2

theorem l1Replace_wf_vc {c : Cache} {vc : VictimCache} (l2 : Cache)
    {tg idx a : Nat} (nd : Bool) (st : Stats)
    (hc : cacheWf c)
    (htg : tg = a / c.blockSize / numberOfSets c)
    (hidx : idx = a / c.blockSize % numberOfSets c)
    (hm : (c.sets.getD idx []).find? (tagMatch tg) = none)
    (hvc : vcPre c a (some vc)) :
    ∀ vc', (l1Replace c (some vc) l2 tg idx a nd st).1.vc = some vc' →
      vcWf (l1Replace c (some vc) l2 tg idx a nd st).1.l1 vc' := by
  obtain ⟨hcap, hlen, hdvt, hbs, hdisj, hnot⟩ := hvc
  intro vc' hvc'
  rw [l1Replace_vc] at hvc'
  simp only [Option.some_inj] at hvc'
  subst hvc'
  rw [l1Replace_l1]
  by_cases hne : (c.sets.getD idx []) = []
  · -- degenerate index: the popped block is the invalid default and the
    -- sets array is untouched
    have hbval : ((c.sets.getD idx []).getLastD emptyBlock).valid = false := by
      rw [hne]; rfl
    have hgeidx : c.sets.length ≤ idx := by
      by_contra h
      push_neg at h
      have hlenit := (hc.2.2 _ h).1
      rw [hne] at hlenit
      have := hc.1
      simp at hlenit
      omega
    rw [List.set_eq_of_length_le hgeidx]
    rw [if_neg (by rw [hbval]; simp)]
    refine ⟨?_, ?_, ?_, ?_, ?_⟩
    · rw [vcInsertInvalid_numberOfBlocks]; exact hcap
    · rw [vcInsertInvalid_numberOfBlocks]; exact vcInsertInvalid_length hlen
    · exact vcInsertInvalid_dvt hdvt
    · rw [vcInsertInvalid_blockSize]; exact hbs
    · intro e he hev i hi y hy hyv
      exact hdisj e (mem_vcInsertInvalid_valid he hev) hev i hi y hy hyv
  · have hlt : idx < c.sets.length := by
      by_contra h
      push_neg at h
      exact hne (getD_of_length_le _ _ _ h)
    have hgs := hc.2.2 _ hlt
    have hbmem : (c.sets.getD idx []).getLastD emptyBlock ∈ c.sets.getD idx [] :=
      getLastD_mem _ _ hne
    have hnsl : c.sets.length = numberOfSets c := hc.2.1
    have hidxns : idx < numberOfSets c := hnsl ▸ hlt
    have ha1 : a / c.blockSize = tg * numberOfSets c + idx := by
      subst htg hidx
      rw [Nat.mul_comm]
      exact (Nat.div_add_mod _ _).symm
    by_cases hbv : ((c.sets.getD idx []).getLastD emptyBlock).valid = true
    · -- the evicted block is valid: victimCache->insert
      rw [if_pos hbv]
      have hbgood : ((c.sets.getD idx []).getLastD emptyBlock).address / c.blockSize =
          ((c.sets.getD idx []).getLastD emptyBlock).tag * numberOfSets c + idx :=
        hgs.2.2 _ hbmem hbv
      have hbtag : ((c.sets.getD idx []).getLastD emptyBlock).tag ≠ tg :=
        find?_none_valid hm _ hbmem hbv
      refine ⟨?_, ?_, ?_, ?_, ?_⟩
      · rw [vcInsert_numberOfBlocks]; exact hcap
      · rw [vcInsert_numberOfBlocks]; exact vcInsert_length _ hcap hlen
      · -- distinct tags in the updated victim cache
        show dvt (⟨true, false, _ / vc.blockSize, _⟩ ::
          (if vc.blocks.length == vc.numberOfBlocks then vc.blocks.dropLast else vc.blocks))
        refine List.pairwise_cons.mpr ⟨?_, ?_⟩
        · intro e he _ hev
          have hee : e ∈ vc.blocks := by
            revert he
            split
            · exact fun h => List.dropLast_subset _ h
            · exact fun h => h
          show (((c.sets.getD idx []).getLastD emptyBlock).address / vc.blockSize) ≠ e.tag
          rw [hbs, hbgood]
          intro hcontra
          exact (hbgood ▸ hdisj e hee hev idx hlt _ hbmem hbv) (hbgood.symm ▸ hcontra)
        · split
          · exact dvt_dropLast hdvt
          · exact hdvt
      · rw [vcInsert_blockSize]; exact hbs
      · -- disjointness of the updated victim cache from the updated L1
        intro e he hev i hi y hy hyv
        simp only [List.length_set] at hi
        have hins : i < numberOfSets c := hnsl ▸ hi
        rcases mem_vcInsert he with rfl | hee
        · -- the new entry: tag is the evicted block's number
          show y.address / c.blockSize ≠
            ((c.sets.getD idx []).getLastD emptyBlock).address / vc.blockSize
          rw [hbs, hbgood]
          rcases mem_new_set hlt hi hy with ⟨hii, rfl | hyr⟩ | ⟨hine, hyo⟩
          · show a / c.blockSize ≠ _
            rw [ha1]
            exact slot_ne hidxns hidxns (Or.inl (fun h => hbtag h.symm))
          · have hygood := hgs.2.2 y (List.dropLast_subset _ hyr) hyv
            rw [hygood]
            have hsplit : (c.sets.getD idx []).dropLast ++
                [(c.sets.getD idx []).getLastD emptyBlock] = c.sets.getD idx [] :=
              dropLast_append_getLastD _ _ hne
            have hdvtb := hgs.2.1
            rw [← hsplit] at hdvtb
            have htagne := (List.pairwise_append.mp hdvtb).2.2 y hyr _
              (List.mem_singleton.mpr rfl) hyv hbv
            exact slot_ne hidxns hidxns (Or.inl htagne)
          · have hygood := (hc.2.2 i hi).2.2 y hyo hyv
            rw [hygood]
            exact slot_ne hins hidxns (Or.inr hine)
        · -- an old entry: use the old disjointness and the probe result
          rcases mem_new_set hlt hi hy with ⟨hii, rfl | hyr⟩ | ⟨hine, hyo⟩
          · show a / c.blockSize ≠ e.tag
            exact fun h => hnot e hee hev h.symm
          · exact hdisj e hee hev idx hlt y (List.dropLast_subset _ hyr) hyv
          · exact hdisj e hee hev i hi y hyo hyv
    · -- the evicted block is invalid: victimCache->insertInvalid
      rw [if_neg hbv]
      refine ⟨?_, ?_, ?_, ?_, ?_⟩
      · rw [vcInsertInvalid_numberOfBlocks]; exact hcap
      · rw [vcInsertInvalid_numberOfBlocks]; exact vcInsertInvalid_length hlen
      · exact vcInsertInvalid_dvt hdvt
      · rw [vcInsertInvalid_blockSize]; exact hbs
      · intro e he hev i hi y hy hyv
        simp only [List.length_set] at hi
        have hee := mem_vcInsertInvalid_valid he hev
        rcases mem_new_set hlt hi hy with ⟨hii, rfl | hyr⟩ | ⟨hine, hyo⟩
        · show a / c.blockSize ≠ e.tag
          exact fun h => hnot e hee hev h.symm
        · exact hdisj e hee hev idx hlt y (List.dropLast_subset _ hyr) hyv
        · exact hdisj e hee hev i hi y hyo hyv

/-- `l1Replace` preserves full-system well-formedness. -/
theorem l1Replace_wf {c : Cache} {vcOpt : Option VictimCache} {l2 : Cache}
    {tg idx a : Nat} (nd : Bool) (st : Stats)
    (hc : cacheWf c) (hl2 : cacheWf l2)
    (htg : tg = a / c.blockSize / numberOfSets c)
    (hidx : idx = a / c.blockSize % numberOfSets c)
    (hm : (c.sets.getD idx []).find? (tagMatch tg) = none)
    (hvc : vcPre c a vcOpt) :
    SysWf (l1Replace c vcOpt l2 tg idx a nd st).1 := by
  refine ⟨l1Replace_wf_l1 vcOpt l2 nd st hc htg hidx hm,
    l1Replace_wf_l2 c vcOpt tg idx a nd st hl2, ?_⟩
  cases vcOpt with
  | none =>
    intro vc' hvc'
    rw [l1Replace_vc] at hvc'
    simp at hvc'
  | some vc =>
    exact l1Replace_wf_vc l2 nd st hc htg hidx hm hvc

/-! ### Path characterization of the L1 operations -/

theorem l1Read_eq_hit {sys : Sys} {a : Nat} (st : Stats) {b : Block}
    (hf : (sys.l1.sets.getD (a / sys.l1.blockSize % numberOfSets sys.l1) []).find?
      (tagMatch (a / sys.l1.blockSize / numberOfSets sys.l1)) = some b) :
    l1Read sys a st =
      (⟨{ sys.l1 with sets := (sys.l1.sets.set
            (a / sys.l1.blockSize % numberOfSets sys.l1)
            (b :: listRemove b (sys.l1.sets.getD
              (a / sys.l1.blockSize % numberOfSets sys.l1) []))) },
        sys.vc, sys.l2⟩,
       { st with accesses := st.accesses + 1 }, []) := by
  simp only [l1Read, hf]

theorem l1Read_eq_vcHit {sys : Sys} {a : Nat} (st : Stats) {vc : VictimCache}
    {e : Block}
    (hvc : sys.vc = some vc)
    (hf : (sys.l1.sets.getD (a / sys.l1.blockSize % numberOfSets sys.l1) []).find?
      (tagMatch (a / sys.l1.blockSize / numberOfSets sys.l1)) = none)
    (hpf : vc.blocks.find? (tagMatch (a / vc.blockSize)) = some e) :
    l1Read sys a st =
      l1Replace sys.l1 (some { vc with blocks := listRemove e vc.blocks }) sys.l2
        (a / sys.l1.blockSize / numberOfSets sys.l1)
        (a / sys.l1.blockSize % numberOfSets sys.l1) a false
        { st with accesses := st.accesses + 1,
                  read_misses_l1 := st.read_misses_l1 + 1,
                  accesses_vc := st.accesses_vc + 1,
                  victim_hits := st.victim_hits + 1 } := by
  simp only [l1Read, hf, hvc, vcRead, hpf, if_true, Bool.false_eq_true, if_false]

theorem l1Read_eq_vcMiss {sys : Sys} {a : Nat} (st : Stats) {vc : VictimCache}
    (hvc : sys.vc = some vc)
    (hf : (sys.l1.sets.getD (a / sys.l1.blockSize % numberOfSets sys.l1) []).find?
      (tagMatch (a / sys.l1.blockSize / numberOfSets sys.l1)) = none)
    (hpf : vc.blocks.find? (tagMatch (a / vc.blockSize)) = none) :
    l1Read sys a st =
      (let m := l2Read sys.l2 a
        { st with accesses := st.accesses + 1,
                  read_misses_l1 := st.read_misses_l1 + 1,
                  accesses_vc := st.accesses_vc + 1 }
       let r := l1Replace sys.l1 (some vc) m.1
         (a / sys.l1.blockSize / numberOfSets sys.l1)
         (a / sys.l1.blockSize % numberOfSets sys.l1) a false m.2.1
       (r.1, r.2.1, Ev.fetch a :: m.2.2 ++ r.2.2)) := by
  simp only [l1Read, hf, hvc, vcRead, hpf, if_true, Bool.false_eq_true, if_false]

theorem l1Read_eq_miss {sys : Sys} {a : Nat} (st : Stats)
    (hvc : sys.vc = none)
    (hf : (sys.l1.sets.getD (a / sys.l1.blockSize % numberOfSets sys.l1) []).find?
      (tagMatch (a / sys.l1.blockSize / numberOfSets sys.l1)) = none) :
    l1Read sys a st =
      (let m := l2Read sys.l2 a
        { st with accesses := st.accesses + 1,
                  read_misses_l1 := st.read_misses_l1 + 1 }
       let r := l1Replace sys.l1 none m.1
         (a / sys.l1.blockSize / numberOfSets sys.l1)
         (a / sys.l1.blockSize % numberOfSets sys.l1) a false m.2.1
       (r.1, r.2.1, Ev.fetch a :: m.2.2 ++ r.2.2)) := by
  simp only [l1Read, hf, hvc]

theorem l1Write_eq_hit {sys : Sys} {a : Nat} (st : Stats) {b : Block}
    (hf : (sys.l1.sets.getD (a / sys.l1.blockSize % numberOfSets sys.l1) []).find?
      (tagMatch (a / sys.l1.blockSize / numberOfSets sys.l1)) = some b) :
    l1Write sys a st =
      (⟨{ sys.l1 with sets := (sys.l1.sets.set
            (a / sys.l1.blockSize % numberOfSets sys.l1)
            ({ b with dirty := true } :: listRemove b (sys.l1.sets.getD
              (a / sys.l1.blockSize % numberOfSets sys.l1) []))) },
        sys.vc, sys.l2⟩,
       { st with accesses := st.accesses + 1 }, []) := by
  simp only [l1Write, hf]

theorem l1Write_eq_vcHit {sys : Sys} {a : Nat} (st : Stats) {vc : VictimCache}
    {e : Block}
    (hvc : sys.vc = some vc)
    (hf : (sys.l1.sets.getD (a / sys.l1.blockSize % numberOfSets sys.l1) []).find?
      (tagMatch (a / sys.l1.blockSize / numberOfSets sys.l1)) = none)
    (hpf : vc.blocks.find? (tagMatch (a / vc.blockSize)) = some e) :
    l1Write sys a st =
      l1Replace sys.l1 (some { vc with blocks := listRemove e vc.blocks }) sys.l2
        (a / sys.l1.blockSize / numberOfSets sys.l1)
        (a / sys.l1.blockSize % numberOfSets sys.l1) a true
        { st with accesses := st.accesses + 1,
                  write_misses_l1 := st.write_misses_l1 + 1,
                  accesses_vc := st.accesses_vc + 1,
                  victim_hits := st.victim_hits + 1 } := by
  simp only [l1Write, hf, hvc, vcRead, hpf, if_true, Bool.false_eq_true, if_false]

theorem l1Write_eq_vcMiss {sys : Sys} {a : Nat} (st : Stats) {vc : VictimCache}
    (hvc : sys.vc = some vc)
    (hf : (sys.l1.sets.getD (a / sys.l1.blockSize % numberOfSets sys.l1) []).find?
      (tagMatch (a / sys.l1.blockSize / numberOfSets sys.l1)) = none)
    (hpf : vc.blocks.find? (tagMatch (a / vc.blockSize)) = none) :
    l1Write sys a st =
      (let m := l2Read sys.l2 a
        { st with accesses := st.accesses + 1,
                  write_misses_l1 := st.write_misses_l1 + 1,
                  accesses_vc := st.accesses_vc + 1 }
       let r := l1Replace sys.l1 (some vc) m.1
         (a / sys.l1.blockSize / numberOfSets sys.l1)
         (a / sys.l1.blockSize % numberOfSets sys.l1) a true m.2.1
       (r.1, r.2.1, Ev.fetch a :: m.2.2 ++ r.2.2)) := by
  simp only [l1Write, hf, hvc, vcRead, hpf, if_true, Bool.false_eq_true, if_false]

theorem l1Write_eq_miss {sys : Sys} {a : Nat} (st : Stats)
    (hvc : sys.vc = none)
    (hf : (sys.l1.sets.getD (a / sys.l1.blockSize % numberOfSets sys.l1) []).find?
      (tagMatch (a / sys.l1.blockSize / numberOfSets sys.l1)) = none) :
    l1Write sys a st =
      (let m := l2Read sys.l2 a
        { st with accesses := st.accesses + 1,
                  write_misses_l1 := st.write_misses_l1 + 1 }
       let r := l1Replace sys.l1 none m.1
         (a / sys.l1.blockSize / numberOfSets sys.l1)
         (a / sys.l1.blockSize % numberOfSets sys.l1) a true m.2.1
       (r.1, r.2.1, Ev.fetch a :: m.2.2 ++ r.2.2)) := by
  simp only [l1Write, hf, hvc]

/-! ### Preservation of `SysWf` by the top-level operations -/

theorem l1Read_wf {sys : Sys} (a : Nat) (st : Stats) (h : SysWf sys) :
    SysWf (l1Read sys a st).1 := by
  obtain ⟨hc, hl2, hvcw⟩ := h
  cases hf : (sys.l1.sets.getD (a / sys.l1.blockSize % numberOfSets sys.l1) []).find?
      (tagMatch (a / sys.l1.blockSize / numberOfSets sys.l1)) with
  | some b =>
    rw [l1Read_eq_hit st hf]
    have hlt : a / sys.l1.blockSize % numberOfSets sys.l1 < sys.l1.sets.length := by
      by_contra hge
      push_neg at hge
      rw [getD_of_length_le _ _ _ hge] at hf
      simp at hf
    refine ⟨cacheWf_set hc (hitSet_good (hc.2.2 _ hlt) hf rfl rfl rfl), hl2, ?_⟩
    intro vc hvc
    obtain ⟨hcap, hlen, hdvt, hbs, hdisj⟩ := hvcw vc hvc
    refine ⟨hcap, hlen, hdvt, hbs, ?_⟩
    intro e he hev i hi y hy hyv
    simp only [List.length_set] at hi
    rcases mem_new_set hlt hi hy with ⟨hii, rfl | hyr⟩ | ⟨hine, hyo⟩
    · exact hdisj e he hev _ hlt y (List.mem_of_find?_eq_some hf) hyv
    · exact hdisj e he hev i hi y (by rw [hii]; exact mem_of_mem_listRemove hyr) hyv
    · exact hdisj e he hev i hi y hyo hyv
  | none =>
    cases hvcs : sys.vc with
    | some vc =>
      obtain ⟨hcap, hlen, hdvt, hbs, hdisj⟩ := hvcw vc hvcs
      cases hpf : vc.blocks.find? (tagMatch (a / vc.blockSize)) with
      | some e =>
        rw [l1Read_eq_vcHit st hvcs hf hpf]
        have hev : e.valid = true := (tagMatch_eq_true.mp (List.find?_some hpf)).1
        have hetag : e.tag = a / vc.blockSize := (tagMatch_eq_true.mp (List.find?_some hpf)).2
        have hemem : e ∈ vc.blocks := List.mem_of_find?_eq_some hpf
        refine l1Replace_wf _ _ hc hl2 rfl rfl hf ?_
        refine ⟨hcap, Or.inr ?_, dvt_listRemove hdvt, hbs, ?_, ?_⟩
        · show (listRemove e vc.blocks).length + 1 = vc.numberOfBlocks
          rw [listRemove_length hdvt hemem hev]
          exact hlen
        · intro e' he' hev' i hi y hy hyv
          exact hdisj e' (mem_of_mem_listRemove he') hev' i hi y hy hyv
        · intro e' he' hev'
          have hne := listRemove_no_match hev he' hev'
          rw [hetag, hbs] at hne
          exact hne
      | none =>
        rw [l1Read_eq_vcMiss st hvcs hf hpf]
        have hpre : vcPre sys.l1 a (some vc) := by
          refine ⟨hcap, Or.inl hlen, hdvt, hbs, hdisj, ?_⟩
          intro e' he' hev'
          have hne := find?_none_valid hpf e' he' hev'
          rw [hbs] at hne
          exact hne
        exact l1Replace_wf _ _ hc (l2Read_wf hl2 _ _) rfl rfl hf hpre
    | none =>
      rw [l1Read_eq_miss st hvcs hf]
      have hpre : vcPre sys.l1 a none := by exact True.intro
      exact l1Replace_wf _ _ hc (l2Read_wf hl2 _ _) rfl rfl hf hpre

theorem l1Write_wf {sys : Sys} (a : Nat) (st : Stats) (h : SysWf sys) :
    SysWf (l1Write sys a st).1 := by
  obtain ⟨hc, hl2, hvcw⟩ := h
  cases hf : (sys.l1.sets.getD (a / sys.l1.blockSize % numberOfSets sys.l1) []).find?
      (tagMatch (a / sys.l1.blockSize / numberOfSets sys.l1)) with
  | some b =>
    rw [l1Write_eq_hit st hf]
    have hlt : a / sys.l1.blockSize % numberOfSets sys.l1 < sys.l1.sets.length := by
      by_contra hge
      push_neg at hge
      rw [getD_of_length_le _ _ _ hge] at hf
      simp at hf
    refine ⟨cacheWf_set hc (hitSet_good (hc.2.2 _ hlt) hf rfl rfl rfl), hl2, ?_⟩
    intro vc hvc
    obtain ⟨hcap, hlen, hdvt, hbs, hdisj⟩ := hvcw vc hvc
    refine ⟨hcap, hlen, hdvt, hbs, ?_⟩
    intro e he hev i hi y hy hyv
    simp only [List.length_set] at hi
    rcases mem_new_set hlt hi hy with ⟨hii, rfl | hyr⟩ | ⟨hine, hyo⟩
    · exact hdisj e he hev _ hlt b (List.mem_of_find?_eq_some hf) hyv
    · exact hdisj e he hev i hi y (by rw [hii]; exact mem_of_mem_listRemove hyr) hyv
    · exact hdisj e he hev i hi y hyo hyv
  | none =>
    cases hvcs : sys.vc with
    | some vc =>
      obtain ⟨hcap, hlen, hdvt, hbs, hdisj⟩ := hvcw vc hvcs
      cases hpf : vc.blocks.find? (tagMatch (a / vc.blockSize)) with
      | some e =>
        rw [l1Write_eq_vcHit st hvcs hf hpf]
        have hev : e.valid = true := (tagMatch_eq_true.mp (List.find?_some hpf)).1
        have hetag : e.tag = a / vc.blockSize := (tagMatch_eq_true.mp (List.find?_some hpf)).2
        have hemem : e ∈ vc.blocks := List.mem_of_find?_eq_some hpf
        refine l1Replace_wf _ _ hc hl2 rfl rfl hf ?_
        refine ⟨hcap, Or.inr ?_, dvt_listRemove hdvt, hbs, ?_, ?_⟩
        · show (listRemove e vc.blocks).length + 1 = vc.numberOfBlocks
          rw [listRemove_length hdvt hemem hev]
          exact hlen
        · intro e' he' hev' i hi y hy hyv
          exact hdisj e' (mem_of_mem_listRemove he') hev' i hi y hy hyv
        · intro e' he' hev'
          have hne := listRemove_no_match hev he' hev'
          rw [hetag, hbs] at hne
          exact hne
      | none =>
        rw [l1Write_eq_vcMiss st hvcs hf hpf]
        have hpre : vcPre sys.l1 a (some vc) := by
          refine ⟨hcap, Or.inl hlen, hdvt, hbs, hdisj, ?_⟩
          intro e' he' hev'
          have hne := find?_none_valid hpf e' he' hev'
          rw [hbs] at hne
          exact hne
        exact l1Replace_wf _ _ hc (l2Read_wf hl2 _ _) rfl rfl hf hpre
    | none =>
      rw [l1Write_eq_miss st hvcs hf]
      have hpre : vcPre sys.l1 a none := by exact True.intro
      exact l1Replace_wf _ _ hc (l2Read_wf hl2 _ _) rfl rfl hf hpre

theorem cacheAccess_wf {sys : Sys} (w : Bool) (a : Nat) (st : Stats)
    (h : SysWf sys) : SysWf (cacheAccess w a sys st).1 := by
  unfold cacheAccess
  split
  · exact l1Write_wf _ _ h
  · exact l1Read_wf _ _ h

theorem setup_cache_wf (c1 b1 s1 v c2 b2 s2 : Nat) :
    SysWf (setup_cache c1 b1 s1 v c2 b2 s2) := by
  have hcache : ∀ c b s : Nat, cacheWf (Cache.mk0 c b s) := by
    intro c b s
    refine ⟨Nat.pos_pow_of_pos s (by omega), by simp [Cache.mk0, numberOfSets], ?_⟩
    intro i hi
    simp only [Cache.mk0, List.length_replicate] at hi
    show goodSet (2 ^ s) (2 ^ b) _ i ((List.replicate (2 ^ c / 2 ^ b / 2 ^ s)
      (List.replicate (2 ^ s) emptyBlock)).getD i [])
    rw [show (List.replicate (2 ^ c / 2 ^ b / 2 ^ s)
      (List.replicate (2 ^ s) emptyBlock)).getD i [] = List.replicate (2 ^ s) emptyBlock by
        simp [List.getD_eq_getElem?_getD, List.getElem?_replicate, hi]]
    refine ⟨by simp, dvt_replicate_empty _, ?_⟩
    intro x hx
    rw [List.eq_of_mem_replicate hx]
    intro hv
    simp [emptyBlock] at hv
  refine ⟨hcache c1 b1 s1, hcache c2 b2 s2, ?_⟩
  intro vc hvc
  unfold setup_cache at hvc
  by_cases hv : v = 0
  · simp [hv] at hvc
  · rw [if_neg (by simp [hv])] at hvc
    obtain rfl : VictimCache.init v b1 = vc := Option.some_inj.mp hvc
    refine ⟨by simp only [VictimCache.init]; omega, by simp [VictimCache.init],
      dvt_replicate_empty _, rfl, ?_⟩
    intro e he hev
    rw [List.eq_of_mem_replicate he] at hev
    simp [emptyBlock] at hev

/-- All states reached by running a trace from a well-formed state are
well-formed. -/
theorem runTrace_wf {sys : Sys} {st : Stats} (tr : List (Bool × Nat))
    (h : SysWf sys) : SysWf (runTrace sys st tr).1 := by
  induction tr generalizing sys st with
  | nil => exact h
  | cons op rest ih =>
    simp only [runTrace]
    exact ih (cacheAccess_wf _ _ _ h)

/-! ### Geometry constancy: operations only modify set contents -/

theorem l1Replace_geom (c : Cache) (vcOpt : Option VictimCache) (l2 : Cache)
    (tg idx a : Nat) (nd : Bool) (st : Stats) :
    (l1Replace c vcOpt l2 tg idx a nd st).1.l1.cacheSize = c.cacheSize ∧
    (l1Replace c vcOpt l2 tg idx a nd st).1.l1.blockSize = c.blockSize ∧
    (l1Replace c vcOpt l2 tg idx a nd st).1.l1.associativity = c.associativity ∧
    (l1Replace c vcOpt l2 tg idx a nd st).1.l1.sets.length = c.sets.length ∧
    (l1Replace c vcOpt l2 tg idx a nd st).1.l2.cacheSize = l2.cacheSize ∧
    (l1Replace c vcOpt l2 tg idx a nd st).1.l2.blockSize = l2.blockSize ∧
    (l1Replace c vcOpt l2 tg idx a nd st).1.l2.associativity = l2.associativity ∧
    (l1Replace c vcOpt l2 tg idx a nd st).1.l2.sets.length = l2.sets.length := by
  refine ⟨?_, ?_, ?_, ?_, ?_, ?_, ?_, ?_⟩
  · rw [l1Replace_l1]
  · rw [l1Replace_l1]
  · rw [l1Replace_l1]
  · rw [l1Replace_l1]
    simp [List.length_set]
  · rw [l1Replace_l2]
    split
    · exact (l2Write_geom _ _ _ _).1
    · rfl
  · rw [l1Replace_l2]
    split
    · exact (l2Write_geom _ _ _ _).2.1
    · rfl
  · rw [l1Replace_l2]
    split
    · exact (l2Write_geom _ _ _ _).2.2.1
    · rfl
  · rw [l1Replace_l2]
    split
    · exact (l2Write_geom _ _ _ _).2.2.2
    · rfl

theorem l1Replace_vcShape (c : Cache) (vcOpt : Option VictimCache) (l2 : Cache)
    (tg idx a : Nat) (nd : Bool) (st : Stats) :
    (vcOpt = none → (l1Replace c vcOpt l2 tg idx a nd st).1.vc = none) ∧
    (∀ vc, vcOpt = some vc →
      ∃ vc', (l1Replace c vcOpt l2 tg idx a nd st).1.vc = some vc' ∧
        vc'.numberOfBlocks = vc.numberOfBlocks ∧ vc'.blockSize = vc.blockSize) := by
  constructor
  · intro h
    subst h
    rw [l1Replace_vc]
  · intro vc h
    subst h
    rw [l1Replace_vc]
    refine ⟨_, rfl, ?_, ?_⟩ <;> split
    · exact vcInsert_numberOfBlocks _ _
    · exact vcInsertInvalid_numberOfBlocks _
    · exact vcInsert_blockSize _ _
    · exact vcInsertInvalid_blockSize _

theorem l1Read_geom (sys : Sys) (a : Nat) (st : Stats) :
    (l1Read sys a st).1.l1.cacheSize = sys.l1.cacheSize ∧
    (l1Read sys a st).1.l1.blockSize = sys.l1.blockSize ∧
    (l1Read sys a st).1.l1.associativity = sys.l1.associativity ∧
    (l1Read sys a st).1.l1.sets.length = sys.l1.sets.length ∧
    (l1Read sys a st).1.l2.cacheSize = sys.l2.cacheSize ∧
    (l1Read sys a st).1.l2.blockSize = sys.l2.blockSize ∧
    (l1Read sys a st).1.l2.associativity = sys.l2.associativity ∧
    (l1Read sys a st).1.l2.sets.length = sys.l2.sets.length ∧
    (sys.vc = none → (l1Read sys a st).1.vc = none) ∧
    (∀ vc, sys.vc = some vc → ∃ vc', (l1Read sys a st).1.vc = some vc' ∧
      vc'.numberOfBlocks = vc.numberOfBlocks ∧ vc'.blockSize = vc.blockSize) := by
  cases hf : (sys.l1.sets.getD (a / sys.l1.blockSize % numberOfSets sys.l1) []).find?
      (tagMatch (a / sys.l1.blockSize / numberOfSets sys.l1)) with
  | some b =>
    rw [l1Read_eq_hit st hf]
    refine ⟨rfl, rfl, rfl, by simp [List.length_set], rfl, rfl, rfl, rfl, ?_, ?_⟩
    · intro h
      exact h
    · intro vc h
      exact ⟨vc, h, rfl, rfl⟩
  | none =>
    cases hvcs : sys.vc with
    | some vc =>
      cases hpf : vc.blocks.find? (tagMatch (a / vc.blockSize)) with
      | some e =>
        rw [l1Read_eq_vcHit st hvcs hf hpf]
        have hg := l1Replace_geom sys.l1
          (some { vc with blocks := listRemove e vc.blocks }) sys.l2
          (a / sys.l1.blockSize / numberOfSets sys.l1)
          (a / sys.l1.blockSize % numberOfSets sys.l1) a false
          { st with accesses := st.accesses + 1,
                    read_misses_l1 := st.read_misses_l1 + 1,
                    accesses_vc := st.accesses_vc + 1,
                    victim_hits := st.victim_hits + 1 }
        refine ⟨hg.1, hg.2.1, hg.2.2.1, hg.2.2.2.1, hg.2.2.2.2.1, hg.2.2.2.2.2.1,
          hg.2.2.2.2.2.2.1, hg.2.2.2.2.2.2.2, ?_, ?_⟩
        · intro h
          cases h
        · intro vc0 h
          obtain rfl : vc = vc0 := Option.some_inj.mp h
          obtain ⟨vc', hvc', hn, hb⟩ := (l1Replace_vcShape sys.l1
            (some { vc with blocks := listRemove e vc.blocks }) sys.l2
            _ _ a false _).2 _ rfl
          exact ⟨vc', hvc', hn, hb⟩
      | none =>
        rw [l1Read_eq_vcMiss st hvcs hf hpf]
        have hg := l1Replace_geom sys.l1 (some vc)
          (l2Read sys.l2 a
            { st with accesses := st.accesses + 1,
                      read_misses_l1 := st.read_misses_l1 + 1,
                      accesses_vc := st.accesses_vc + 1 }).1
          (a / sys.l1.blockSize / numberOfSets sys.l1)
          (a / sys.l1.blockSize % numberOfSets sys.l1) a false
          (l2Read sys.l2 a
            { st with accesses := st.accesses + 1,
                      read_misses_l1 := st.read_misses_l1 + 1,
                      accesses_vc := st.accesses_vc + 1 }).2.1
        have hg2 := l2Read_geom sys.l2 a
          { st with accesses := st.accesses + 1,
                    read_misses_l1 := st.read_misses_l1 + 1,
                    accesses_vc := st.accesses_vc + 1 }
        refine ⟨hg.1, hg.2.1, hg.2.2.1, hg.2.2.2.1,
          hg.2.2.2.2.1.trans hg2.1, hg.2.2.2.2.2.1.trans hg2.2.1,
          hg.2.2.2.2.2.2.1.trans hg2.2.2.1, hg.2.2.2.2.2.2.2.trans hg2.2.2.2, ?_, ?_⟩
        · intro h
          cases h
        · intro vc0 h
          obtain rfl : vc = vc0 := Option.some_inj.mp h
          obtain ⟨vc', hvc', hn, hb⟩ := (l1Replace_vcShape sys.l1 (some vc) _
            _ _ a false _).2 _ rfl
          exact ⟨vc', hvc', hn, hb⟩
    | none =>
      rw [l1Read_eq_miss st hvcs hf]
      have hg := l1Replace_geom sys.l1 none
        (l2Read sys.l2 a
          { st with accesses := st.accesses + 1,
                    read_misses_l1 := st.read_misses_l1 + 1 }).1
        (a / sys.l1.blockSize / numberOfSets sys.l1)
        (a / sys.l1.blockSize % numberOfSets sys.l1) a false
        (l2Read sys.l2 a
          { st with accesses := st.accesses + 1,
                    read_misses_l1 := st.read_misses_l1 + 1 }).2.1
      have hg2 := l2Read_geom sys.l2 a
        { st with accesses := st.accesses + 1,
                  read_misses_l1 := st.read_misses_l1 + 1 }
      refine ⟨hg.1, hg.2.1, hg.2.2.1, hg.2.2.2.1,
        hg.2.2.2.2.1.trans hg2.1, hg.2.2.2.2.2.1.trans hg2.2.1,
        hg.2.2.2.2.2.2.1.trans hg2.2.2.1, hg.2.2.2.2.2.2.2.trans hg2.2.2.2, ?_, ?_⟩
      · intro h
        exact (l1Replace_vcShape sys.l1 none _ _ _ a false _).1 rfl
      · intro vc0 h
        cases h

theorem l1Write_geom (sys : Sys) (a : Nat) (st : Stats) :
    (l1Write sys a st).1.l1.cacheSize = sys.l1.cacheSize ∧
    (l1Write sys a st).1.l1.blockSize = sys.l1.blockSize ∧
    (l1Write sys a st).1.l1.associativity = sys.l1.associativity ∧
    (l1Write sys a st).1.l1.sets.length = sys.l1.sets.length ∧
    (l1Write sys a st).1.l2.cacheSize = sys.l2.cacheSize ∧
    (l1Write sys a st).1.l2.blockSize = sys.l2.blockSize ∧
    (l1Write sys a st).1.l2.associativity = sys.l2.associativity ∧
    (l1Write sys a st).1.l2.sets.length = sys.l2.sets.length ∧
    (sys.vc = none → (l1Write sys a st).1.vc = none) ∧
    (∀ vc, sys.vc = some vc → ∃ vc', (l1Write sys a st).1.vc = some vc' ∧
      vc'.numberOfBlocks = vc.numberOfBlocks ∧ vc'.blockSize = vc.blockSize) := by
  cases hf : (sys.l1.sets.getD (a / sys.l1.blockSize % numberOfSets sys.l1) []).find?
      (tagMatch (a / sys.l1.blockSize / numberOfSets sys.l1)) with
  | some b =>
    rw [l1Write_eq_hit st hf]
    refine ⟨rfl, rfl, rfl, by simp [List.length_set], rfl, rfl, rfl, rfl, ?_, ?_⟩
    · intro h
      exact h
    · intro vc h
      exact ⟨vc, h, rfl, rfl⟩
  | none =>
    cases hvcs : sys.vc with
    | some vc =>
      cases hpf : vc.blocks.find? (tagMatch (a / vc.blockSize)) with
      | some e =>
        rw [l1Write_eq_vcHit st hvcs hf hpf]
        have hg := l1Replace_geom sys.l1
          (some { vc with blocks := listRemove e vc.blocks }) sys.l2
          (a / sys.l1.blockSize / numberOfSets sys.l1)
          (a / sys.l1.blockSize % numberOfSets sys.l1) a true
          { st with accesses := st.accesses + 1,
                    write_misses_l1 := st.write_misses_l1 + 1,
                    accesses_vc := st.accesses_vc + 1,
                    victim_hits := st.victim_hits + 1 }
        refine ⟨hg.1, hg.2.1, hg.2.2.1, hg.2.2.2.1, hg.2.2.2.2.1, hg.2.2.2.2.2.1,
          hg.2.2.2.2.2.2.1, hg.2.2.2.2.2.2.2, ?_, ?_⟩
        · intro h
          cases h
        · intro vc0 h
          obtain rfl : vc = vc0 := Option.some_inj.mp h
          obtain ⟨vc', hvc', hn, hb⟩ := (l1Replace_vcShape sys.l1
            (some { vc with blocks := listRemove e vc.blocks }) sys.l2
            _ _ a true _).2 _ rfl
          exact ⟨vc', hvc', hn, hb⟩
      | none =>
        rw [l1Write_eq_vcMiss st hvcs hf hpf]
        have hg := l1Replace_geom sys.l1 (some vc)
          (l2Read sys.l2 a
            { st with accesses := st.accesses + 1,
                      write_misses_l1 := st.write_misses_l1 + 1,
                      accesses_vc := st.accesses_vc + 1 }).1
          (a / sys.l1.blockSize / numberOfSets sys.l1)
          (a / sys.l1.blockSize % numberOfSets sys.l1) a true
          (l2Read sys.l2 a
            { st with accesses := st.accesses + 1,
                      write_misses_l1 := st.write_misses_l1 + 1,
                      accesses_vc := st.accesses_vc + 1 }).2.1
        have hg2 := l2Read_geom sys.l2 a
          { st with accesses := st.accesses + 1,
                    write_misses_l1 := st.write_misses_l1 + 1,
                    accesses_vc := st.accesses_vc + 1 }
        refine ⟨hg.1, hg.2.1, hg.2.2.1, hg.2.2.2.1,
          hg.2.2.2.2.1.trans hg2.1, hg.2.2.2.2.2.1.trans hg2.2.1,
          hg.2.2.2.2.2.2.1.trans hg2.2.2.1, hg.2.2.2.2.2.2.2.trans hg2.2.2.2, ?_, ?_⟩
        · intro h
          cases h
        · intro vc0 h
          obtain rfl : vc = vc0 := Option.some_inj.mp h
          obtain ⟨vc', hvc', hn, hb⟩ := (l1Replace_vcShape sys.l1 (some vc) _
            _ _ a true _).2 _ rfl
          exact ⟨vc', hvc', hn, hb⟩
    | none =>
      rw [l1Write_eq_miss st hvcs hf]
      have hg := l1Replace_geom sys.l1 none
        (l2Read sys.l2 a
          { st with accesses := st.accesses + 1,
                    write_misses_l1 := st.write_misses_l1 + 1 }).1
        (a / sys.l1.blockSize / numberOfSets sys.l1)
        (a / sys.l1.blockSize % numberOfSets sys.l1) a true
        (l2Read sys.l2 a
          { st with accesses := st.accesses + 1,
                    write_misses_l1 := st.write_misses_l1 + 1 }).2.1
      have hg2 := l2Read_geom sys.l2 a
        { st with accesses := st.accesses + 1,
                  write_misses_l1 := st.write_misses_l1 + 1 }
      refine ⟨hg.1, hg.2.1, hg.2.2.1, hg.2.2.2.1,
        hg.2.2.2.2.1.trans hg2.1, hg.2.2.2.2.2.1.trans hg2.2.1,
        hg.2.2.2.2.2.2.1.trans hg2.2.2.1, hg.2.2.2.2.2.2.2.trans hg2.2.2.2, ?_, ?_⟩
      · intro h
        exact (l1Replace_vcShape sys.l1 none _ _ _ a true _).1 rfl
      · intro vc0 h
        cases h


theorem cacheAccess_geom (w : Bool) (a : Nat) (sys : Sys) (st : Stats) :
    (cacheAccess w a sys st).1.l1.cacheSize = sys.l1.cacheSize ∧
    (cacheAccess w a sys st).1.l1.blockSize = sys.l1.blockSize ∧
    (cacheAccess w a sys st).1.l1.associativity = sys.l1.associativity ∧
    (cacheAccess w a sys st).1.l1.sets.length = sys.l1.sets.length ∧
    (cacheAccess w a sys st).1.l2.cacheSize = sys.l2.cacheSize ∧
    (cacheAccess w a sys st).1.l2.blockSize = sys.l2.blockSize ∧
    (cacheAccess w a sys st).1.l2.associativity = sys.l2.associativity ∧
    (cacheAccess w a sys st).1.l2.sets.length = sys.l2.sets.length ∧
    (sys.vc = none → (cacheAccess w a sys st).1.vc = none) ∧
    (∀ vc, sys.vc = some vc → ∃ vc', (cacheAccess w a sys st).1.vc = some vc' ∧
      vc'.numberOfBlocks = vc.numberOfBlocks ∧ vc'.blockSize = vc.blockSize) := by
  unfold cacheAccess
  split
  · exact l1Write_geom sys a _
  · exact l1Read_geom sys a _

theorem runTrace_geom (tr : List (Bool × Nat)) (sys : Sys) (st : Stats) :
    (runTrace sys st tr).1.l1.cacheSize = sys.l1.cacheSize ∧
    (runTrace sys st tr).1.l1.blockSize = sys.l1.blockSize ∧
    (runTrace sys st tr).1.l1.associativity = sys.l1.associativity ∧
    (runTrace sys st tr).1.l1.sets.length = sys.l1.sets.length ∧
    (runTrace sys st tr).1.l2.cacheSize = sys.l2.cacheSize ∧
    (runTrace sys st tr).1.l2.blockSize = sys.l2.blockSize ∧
    (runTrace sys st tr).1.l2.associativity = sys.l2.associativity ∧
    (runTrace sys st tr).1.l2.sets.length = sys.l2.sets.length ∧
    (sys.vc = none → (runTrace sys st tr).1.vc = none) ∧
    (∀ vc, sys.vc = some vc → ∃ vc', (runTrace sys st tr).1.vc = some vc' ∧
      vc'.numberOfBlocks = vc.numberOfBlocks ∧ vc'.blockSize = vc.blockSize) := by
  induction tr generalizing sys st with
  | nil =>
    exact ⟨rfl, rfl, rfl, rfl, rfl, rfl, rfl, rfl, fun h => h,
      fun vc h => ⟨vc, h, rfl, rfl⟩⟩
  | cons op rest ih =>
    simp only [runTrace]
    have hstep := cacheAccess_geom op.1 op.2 sys st
    have hrest := ih (cacheAccess op.1 op.2 sys st).1 (cacheAccess op.1 op.2 sys st).2.1
    refine ⟨hrest.1.trans hstep.1, hrest.2.1.trans hstep.2.1,
      hrest.2.2.1.trans hstep.2.2.1, hrest.2.2.2.1.trans hstep.2.2.2.1,
      hrest.2.2.2.2.1.trans hstep.2.2.2.2.1,
      hrest.2.2.2.2.2.1.trans hstep.2.2.2.2.2.1,
      hrest.2.2.2.2.2.2.1.trans hstep.2.2.2.2.2.2.1,
      hrest.2.2.2.2.2.2.2.1.trans hstep.2.2.2.2.2.2.2.1, ?_, ?_⟩
    · intro h
      exact hrest.2.2.2.2.2.2.2.2.1 (hstep.2.2.2.2.2.2.2.2.1 h)
    · intro vc h
      obtain ⟨vc1, h1, hn1, hb1⟩ := hstep.2.2.2.2.2.2.2.2.2 vc h
      obtain ⟨vc2, h2, hn2, hb2⟩ := hrest.2.2.2.2.2.2.2.2.2 vc1 h1
      exact ⟨vc2, h2, hn2.trans hn1, hb2.trans hb1⟩

/-! ### Claim C8 -/

/-- C8: for every set of every cache, after any sequence of read and
write operations starting from construction, the set's block list has
length exactly the configured associativity (`2^s1` at L1, `2^s2` at
L2); empty slots are represented as invalid blocks, a hit removes and
re-inserts one block, and every miss pairs one back-eviction with one
front-insertion. -/
theorem C8_set_length_invariant (c1 b1 s1 v c2 b2 s2 : Nat)
    (tr : List (Bool × Nat)) :
    (∀ S ∈ (runTrace (setup_cache c1 b1 s1 v c2 b2 s2) Stats.zero tr).1.l1.sets,
      S.length = 2 ^ s1) ∧
    (∀ S ∈ (runTrace (setup_cache c1 b1 s1 v c2 b2 s2) Stats.zero tr).1.l2.sets,
      S.length = 2 ^ s2) := by
  have hwf := @runTrace_wf (setup_cache c1 b1 s1 v c2 b2 s2) Stats.zero tr
    (setup_cache_wf c1 b1 s1 v c2 b2 s2)
  have hg := runTrace_geom tr (setup_cache c1 b1 s1 v c2 b2 s2) Stats.zero
  constructor
  · intro S hS
    obtain ⟨i, hi, rfl⟩ := List.mem_iff_getElem.mp hS
    have hgood := hwf.1.2.2 i hi
    rw [← List.getD_eq_getElem _ [] hi, hgood.1]
    exact hg.2.2.1
  · intro S hS
    obtain ⟨i, hi, rfl⟩ := List.mem_iff_getElem.mp hS
    have hgood := hwf.2.1.2.2 i hi
    rw [← List.getD_eq_getElem _ [] hi, hgood.1]
    exact hg.2.2.2.2.2.2.1

/-- Witness for C8 at a concrete configuration and trace. -/
theorem C8_set_length_invariant_witness :
    ((runTrace (setup_cache 2 0 0 0 4 0 0) Stats.zero [(false, 0)]).1.l1.sets.getD 0 [])
      ∈ (runTrace (setup_cache 2 0 0 0 4 0 0) Stats.zero [(false, 0)]).1.l1.sets ∧
    ((runTrace (setup_cache 2 0 0 0 4 0 0) Stats.zero
      [(false, 0)]).1.l1.sets.getD 0 []).length = 2 ^ 0 :=
  ⟨by decide, (C8_set_length_invariant 2 0 0 0 4 0 0 [(false, 0)]).1 _ (by decide)⟩

/-! ### Claim C9 -/

/-- C9: in every reachable state, each set contains at most one valid
block with any given tag (`dvt`), and the victim cache contains at most
one valid entry with any given tag; consequently the remove-by-equality
performed on a hit removes exactly one element. -/
theorem C9_distinct_valid_tags (c1 b1 s1 v c2 b2 s2 : Nat)
    (tr : List (Bool × Nat)) :
    (∀ S ∈ (runTrace (setup_cache c1 b1 s1 v c2 b2 s2) Stats.zero tr).1.l1.sets,
      dvt S) ∧
    (∀ S ∈ (runTrace (setup_cache c1 b1 s1 v c2 b2 s2) Stats.zero tr).1.l2.sets,
      dvt S) ∧
    (∀ vc, (runTrace (setup_cache c1 b1 s1 v c2 b2 s2) Stats.zero tr).1.vc = some vc →
      dvt vc.blocks) ∧
    (∀ S ∈ (runTrace (setup_cache c1 b1 s1 v c2 b2 s2) Stats.zero tr).1.l1.sets,
      ∀ b ∈ S, b.valid = true → (listRemove b S).length + 1 = S.length) ∧
    (∀ vc, (runTrace (setup_cache c1 b1 s1 v c2 b2 s2) Stats.zero tr).1.vc = some vc →
      ∀ b ∈ vc.blocks, b.valid = true →
        (listRemove b vc.blocks).length + 1 = vc.blocks.length) := by
  have hwf := @runTrace_wf (setup_cache c1 b1 s1 v c2 b2 s2) Stats.zero tr
    (setup_cache_wf c1 b1 s1 v c2 b2 s2)
  have hl1 : ∀ S ∈ (runTrace (setup_cache c1 b1 s1 v c2 b2 s2) Stats.zero
      tr).1.l1.sets, dvt S := by
    intro S hS
    obtain ⟨i, hi, rfl⟩ := List.mem_iff_getElem.mp hS
    have hgood := hwf.1.2.2 i hi
    rw [← List.getD_eq_getElem _ [] hi]
    exact hgood.2.1
  refine ⟨hl1, ?_, ?_, ?_, ?_⟩
  · intro S hS
    obtain ⟨i, hi, rfl⟩ := List.mem_iff_getElem.mp hS
    have hgood := hwf.2.1.2.2 i hi
    rw [← List.getD_eq_getElem _ [] hi]
    exact hgood.2.1
  · intro vc hvc
    exact (hwf.2.2 vc hvc).2.2.1
  · intro S hS b hb hbv
    exact listRemove_length (hl1 S hS) hb hbv
  · intro vc hvc b hb hbv
    exact listRemove_length (hwf.2.2 vc hvc).2.2.1 hb hbv

/-- Witness for C9 at a concrete configuration and trace. -/
theorem C9_distinct_valid_tags_witness :
    ((runTrace (setup_cache 2 0 0 0 4 0 0) Stats.zero [(false, 0)]).1.l1.sets.getD 0 [])
      ∈ (runTrace (setup_cache 2 0 0 0 4 0 0) Stats.zero [(false, 0)]).1.l1.sets ∧
    (⟨true, false, 0, 0⟩ : Block)
      ∈ ((runTrace (setup_cache 2 0 0 0 4 0 0) Stats.zero [(false, 0)]).1.l1.sets.getD 0 []) ∧
    (⟨true, false, 0, 0⟩ : Block).valid = true ∧
    (listRemove ⟨true, false, 0, 0⟩
      ((runTrace (setup_cache 2 0 0 0 4 0 0) Stats.zero [(false, 0)]).1.l1.sets.getD 0 [])).length + 1 =
      ((runTrace (setup_cache 2 0 0 0 4 0 0) Stats.zero [(false, 0)]).1.l1.sets.getD 0 []).length :=
  ⟨by decide, by decide, by decide,
    (C9_distinct_valid_tags 2 0 0 0 4 0 0 [(false, 0)]).2.2.2.1 _ (by decide) _
      (by decide) (by decide)⟩

/-! ### Claim C10 -/

/-- C10: when a victim cache of `v > 0` blocks is configured, its entry
list (valid entries plus invalid placeholders) has length exactly `v`
at the start and end of every top-level read or write operation. -/
theorem C10_vc_length_invariant (c1 b1 s1 v c2 b2 s2 : Nat)
    (tr : List (Bool × Nat)) (hv : v ≠ 0) :
    ∃ vc, (runTrace (setup_cache c1 b1 s1 v c2 b2 s2) Stats.zero tr).1.vc = some vc ∧
      vc.blocks.length = v := by
  have hg := runTrace_geom tr (setup_cache c1 b1 s1 v c2 b2 s2) Stats.zero
  have hsetup : (setup_cache c1 b1 s1 v c2 b2 s2).vc = some (VictimCache.init v b1) := by
    show (if v == 0 then none else some (VictimCache.init v b1)) =
      some (VictimCache.init v b1)
    rw [if_neg (by simp [hv])]
  obtain ⟨vc', hvc', hn, hb⟩ := hg.2.2.2.2.2.2.2.2.2 _ hsetup
  have hwf := @runTrace_wf (setup_cache c1 b1 s1 v c2 b2 s2) Stats.zero tr
    (setup_cache_wf c1 b1 s1 v c2 b2 s2)
  refine ⟨vc', hvc', ?_⟩
  rw [(hwf.2.2 vc' hvc').2.1, hn]
  rfl

/-- Witness for C10 at a concrete configuration and trace. -/
theorem C10_vc_length_invariant_witness :
    (2 : Nat) ≠ 0 ∧
    ∃ vc, (runTrace (setup_cache 4 4 0 2 8 4 0) Stats.zero [(false, 0)]).1.vc = some vc ∧
      vc.blocks.length = 2 :=
  ⟨by decide, C10_vc_length_invariant 4 4 0 2 8 4 0 [(false, 0)] (by decide)⟩

/-! ### Write-back bookkeeping over the event log (claim C1) -/

theorem l2Read_countP_wb (c : Cache) (a : Nat) (st : Stats) :
    (l2Read c a st).2.2.countP isWbEv = 0 :=
  List.countP_eq_zero.mpr (by
    intro e he
    rcases l2Read_log c a st e he with ⟨bb, rfl⟩ | ⟨bb, rfl⟩ <;> simp [isWbEv])

theorem l2Read_countP_de (c : Cache) (a : Nat) (st : Stats) :
    (l2Read c a st).2.2.countP isDirtyEvictL1 = 0 :=
  List.countP_eq_zero.mpr (by
    intro e he
    rcases l2Read_log c a st e he with ⟨bb, rfl⟩ | ⟨bb, rfl⟩ <;> simp [isDirtyEvictL1])

theorem l2Write_countP_wb (c : Cache) (a : Nat) (wb : Bool) (st : Stats) :
    (l2Write c a wb st).2.2.countP isWbEv = 0 :=
  List.countP_eq_zero.mpr (by
    intro e he
    rcases l2Write_log c a wb st e he with ⟨bb, rfl⟩ | ⟨bb, rfl⟩ <;> simp [isWbEv])

theorem l2Write_countP_de (c : Cache) (a : Nat) (wb : Bool) (st : Stats) :
    (l2Write c a wb st).2.2.countP isDirtyEvictL1 = 0 :=
  List.countP_eq_zero.mpr (by
    intro e he
    rcases l2Write_log c a wb st e he with ⟨bb, rfl⟩ | ⟨bb, rfl⟩ <;> simp [isDirtyEvictL1])

/-- In one `l1Replace`, a write-back write to L2 is emitted exactly when
the evicted L1 block is dirty. -/
theorem l1Replace_wb_balance (c : Cache) (vcOpt : Option VictimCache) (l2 : Cache)
    (tg idx a : Nat) (nd : Bool) (st : Stats) :
    (l1Replace c vcOpt l2 tg idx a nd st).2.2.countP isWbEv =
      (l1Replace c vcOpt l2 tg idx a nd st).2.2.countP isDirtyEvictL1 := by
  rw [l1Replace_log]
  generalize (c.sets.getD idx []).getLastD emptyBlock = b
  cases vcOpt <;>
    by_cases hd : b.dirty = true <;>
      by_cases hv : b.valid = true <;>
        simp [hd, hv, List.countP_cons, List.countP_append, isWbEv, isDirtyEvictL1,
          l2Write_countP_wb, l2Write_countP_de]

theorem l1Read_wb_balance (sys : Sys) (a : Nat) (st : Stats) :
    (l1Read sys a st).2.2.countP isWbEv =
      (l1Read sys a st).2.2.countP isDirtyEvictL1 := by
  cases hf : (sys.l1.sets.getD (a / sys.l1.blockSize % numberOfSets sys.l1) []).find?
      (tagMatch (a / sys.l1.blockSize / numberOfSets sys.l1)) with
  | some b =>
    rw [l1Read_eq_hit st hf]
    rfl
  | none =>
    cases hvcs : sys.vc with
    | some vc =>
      cases hpf : vc.blocks.find? (tagMatch (a / vc.blockSize)) with
      | some e =>
        rw [l1Read_eq_vcHit st hvcs hf hpf]
        exact l1Replace_wb_balance _ _ _ _ _ _ _ _
      | none =>
        rw [l1Read_eq_vcMiss st hvcs hf hpf]
        simp [List.countP_cons, List.countP_append, isWbEv, isDirtyEvictL1,
          l2Read_countP_wb, l2Read_countP_de, l1Replace_wb_balance]
    | none =>
      rw [l1Read_eq_miss st hvcs hf]
      simp [List.countP_cons, List.countP_append, isWbEv, isDirtyEvictL1,
        l2Read_countP_wb, l2Read_countP_de, l1Replace_wb_balance]

theorem l1Write_wb_balance (sys : Sys) (a : Nat) (st : Stats) :
    (l1Write sys a st).2.2.countP isWbEv =
      (l1Write sys a st).2.2.countP isDirtyEvictL1 := by
  cases hf : (sys.l1.sets.getD (a / sys.l1.blockSize % numberOfSets sys.l1) []).find?
      (tagMatch (a / sys.l1.blockSize / numberOfSets sys.l1)) with
  | some b =>
    rw [l1Write_eq_hit st hf]
    rfl
  | none =>
    cases hvcs : sys.vc with
    | some vc =>
      cases hpf : vc.blocks.find? (tagMatch (a / vc.blockSize)) with
      | some e =>
        rw [l1Write_eq_vcHit st hvcs hf hpf]
        exact l1Replace_wb_balance _ _ _ _ _ _ _ _
      | none =>
        rw [l1Write_eq_vcMiss st hvcs hf hpf]
        simp [List.countP_cons, List.countP_append, isWbEv, isDirtyEvictL1,
          l2Read_countP_wb, l2Read_countP_de, l1Replace_wb_balance]
    | none =>
      rw [l1Write_eq_miss st hvcs hf]
      simp [List.countP_cons, List.countP_append, isWbEv, isDirtyEvictL1,
        l2Read_countP_wb, l2Read_countP_de, l1Replace_wb_balance]

theorem runTrace_wb_balance (tr : List (Bool × Nat)) (sys : Sys) (st : Stats) :
    (runTrace sys st tr).2.2.countP isWbEv =
      (runTrace sys st tr).2.2.countP isDirtyEvictL1 := by
  induction tr generalizing sys st with
  | nil => rfl
  | cons op rest ih =>
    simp only [runTrace, List.countP_append]
    have hop : (cacheAccess op.1 op.2 sys st).2.2.countP isWbEv =
        (cacheAccess op.1 op.2 sys st).2.2.countP isDirtyEvictL1 := by
      unfold cacheAccess
      split
      · exact l1Write_wb_balance _ _ _
      · exact l1Read_wb_balance _ _ _
    rw [hop, ih]

/-! ### Claim C1 -/

/-- C1 (amended): over any trace, the number of write-back writes issued
from L1 to L2 equals the number of dirty LRU evictions at L1 with no
deduction for victim-cache absorption: a dirty evicted block that the
victim cache absorbs is written back at absorption time (and inserted
into the victim cache clean); the victim cache itself never issues a
write-back when it later drops the entry. -/
theorem C1_write_back_conservation (c1 b1 s1 v c2 b2 s2 : Nat)
    (tr : List (Bool × Nat)) :
    countWbL1 (runTrace (setup_cache c1 b1 s1 v c2 b2 s2) Stats.zero tr).2.2 =
      countDirtyEvictL1 (runTrace (setup_cache c1 b1 s1 v c2 b2 s2) Stats.zero tr).2.2 := by
  simp only [countWbL1, countDirtyEvictL1]
  exact runTrace_wb_balance tr _ _

/-- C1 counterexample: with a one-block victim cache, the trace
`write 0; read 16` dirty-evicts block 0, which the victim cache absorbs,
yet a write-back to L2 is still issued at absorption time: the counts
violate the claimed equation `write-backs = dirty evictions - absorbed`. -/
theorem C1_counterexample :
    countWbL1 (runTrace (setup_cache 4 4 0 1 8 4 0) Stats.zero
      [(true, 0), (false, 16)]).2.2 = 1 ∧
    countDirtyEvictL1 (runTrace (setup_cache 4 4 0 1 8 4 0) Stats.zero
      [(true, 0), (false, 16)]).2.2 = 1 ∧
    countDirtyAbsorb (runTrace (setup_cache 4 4 0 1 8 4 0) Stats.zero
      [(true, 0), (false, 16)]).2.2 = 1 ∧
    countWbL1 (runTrace (setup_cache 4 4 0 1 8 4 0) Stats.zero
      [(true, 0), (false, 16)]).2.2 ≠
      countDirtyEvictL1 (runTrace (setup_cache 4 4 0 1 8 4 0) Stats.zero
        [(true, 0), (false, 16)]).2.2 -
      countDirtyAbsorb (runTrace (setup_cache 4 4 0 1 8 4 0) Stats.zero
        [(true, 0), (false, 16)]).2.2 := by
  decide


theorem l1Read_eq_vcMiss_log {sys : Sys} {a : Nat} (st : Stats) {vc : VictimCache}
    (hvc : sys.vc = some vc)
    (hf : (sys.l1.sets.getD (a / sys.l1.blockSize % numberOfSets sys.l1) []).find?
      (tagMatch (a / sys.l1.blockSize / numberOfSets sys.l1)) = none)
    (hpf : vc.blocks.find? (tagMatch (a / vc.blockSize)) = none) :
    (l1Read sys a st).2.2 =
      Ev.fetch a :: (l2Read sys.l2 a
        { st with accesses := st.accesses + 1,
                  read_misses_l1 := st.read_misses_l1 + 1,
                  accesses_vc := st.accesses_vc + 1 }).2.2 ++
      (l1Replace sys.l1 (some vc)
        (l2Read sys.l2 a
          { st with accesses := st.accesses + 1,
                    read_misses_l1 := st.read_misses_l1 + 1,
                    accesses_vc := st.accesses_vc + 1 }).1
        (a / sys.l1.blockSize / numberOfSets sys.l1)
        (a / sys.l1.blockSize % numberOfSets sys.l1) a false
        (l2Read sys.l2 a
          { st with accesses := st.accesses + 1,
                    read_misses_l1 := st.read_misses_l1 + 1,
                    accesses_vc := st.accesses_vc + 1 }).2.1).2.2 := by
  rw [l1Read_eq_vcMiss st hvc hf hpf]

theorem l1Read_eq_vcMiss_stats {sys : Sys} {a : Nat} (st : Stats) {vc : VictimCache}
    (hvc : sys.vc = some vc)
    (hf : (sys.l1.sets.getD (a / sys.l1.blockSize % numberOfSets sys.l1) []).find?
      (tagMatch (a / sys.l1.blockSize / numberOfSets sys.l1)) = none)
    (hpf : vc.blocks.find? (tagMatch (a / vc.blockSize)) = none) :
    (l1Read sys a st).2.1 =
      (l1Replace sys.l1 (some vc)
        (l2Read sys.l2 a
          { st with accesses := st.accesses + 1,
                    read_misses_l1 := st.read_misses_l1 + 1,
                    accesses_vc := st.accesses_vc + 1 }).1
        (a / sys.l1.blockSize / numberOfSets sys.l1)
        (a / sys.l1.blockSize % numberOfSets sys.l1) a false
        (l2Read sys.l2 a
          { st with accesses := st.accesses + 1,
                    read_misses_l1 := st.read_misses_l1 + 1,
                    accesses_vc := st.accesses_vc + 1 }).2.1).2.1 := by
  rw [l1Read_eq_vcMiss st hvc hf hpf]

theorem l1Read_eq_miss_log {sys : Sys} {a : Nat} (st : Stats)
    (hvc : sys.vc = none)
    (hf : (sys.l1.sets.getD (a / sys.l1.blockSize % numberOfSets sys.l1) []).find?
      (tagMatch (a / sys.l1.blockSize / numberOfSets sys.l1)) = none) :
    (l1Read sys a st).2.2 =
      Ev.fetch a :: (l2Read sys.l2 a
        { st with accesses := st.accesses + 1,
                  read_misses_l1 := st.read_misses_l1 + 1 }).2.2 ++
      (l1Replace sys.l1 none
        (l2Read sys.l2 a
          { st with accesses := st.accesses + 1,
                    read_misses_l1 := st.read_misses_l1 + 1 }).1
        (a / sys.l1.blockSize / numberOfSets sys.l1)
        (a / sys.l1.blockSize % numberOfSets sys.l1) a false
        (l2Read sys.l2 a
          { st with accesses := st.accesses + 1,
                    read_misses_l1 := st.read_misses_l1 + 1 }).2.1).2.2 := by
  rw [l1Read_eq_miss st hvc hf]

theorem l1Read_eq_miss_stats {sys : Sys} {a : Nat} (st : Stats)
    (hvc : sys.vc = none)
    (hf : (sys.l1.sets.getD (a / sys.l1.blockSize % numberOfSets sys.l1) []).find?
      (tagMatch (a / sys.l1.blockSize / numberOfSets sys.l1)) = none) :
    (l1Read sys a st).2.1 =
      (l1Replace sys.l1 none
        (l2Read sys.l2 a
          { st with accesses := st.accesses + 1,
                    read_misses_l1 := st.read_misses_l1 + 1 }).1
        (a / sys.l1.blockSize / numberOfSets sys.l1)
        (a / sys.l1.blockSize % numberOfSets sys.l1) a false
        (l2Read sys.l2 a
          { st with accesses := st.accesses + 1,
                    read_misses_l1 := st.read_misses_l1 + 1 }).2.1).2.1 := by
  rw [l1Read_eq_miss st hvc hf]

theorem l1Write_eq_vcMiss_log {sys : Sys} {a : Nat} (st : Stats) {vc : VictimCache}
    (hvc : sys.vc = some vc)
    (hf : (sys.l1.sets.getD (a / sys.l1.blockSize % numberOfSets sys.l1) []).find?
      (tagMatch (a / sys.l1.blockSize / numberOfSets sys.l1)) = none)
    (hpf : vc.blocks.find? (tagMatch (a / vc.blockSize)) = none) :
    (l1Write sys a st).2.2 =
      Ev.fetch a :: (l2Read sys.l2 a
        { st with accesses := st.accesses + 1,
                  write_misses_l1 := st.write_misses_l1 + 1,
                  accesses_vc := st.accesses_vc + 1 }).2.2 ++
      (l1Replace sys.l1 (some vc)
        (l2Read sys.l2 a
          { st with accesses := st.accesses + 1,
                    write_misses_l1 := st.write_misses_l1 + 1,
                    accesses_vc := st.accesses_vc + 1 }).1
        (a / sys.l1.blockSize / numberOfSets sys.l1)
        (a / sys.l1.blockSize % numberOfSets sys.l1) a true
        (l2Read sys.l2 a
          { st with accesses := st.accesses + 1,
                    write_misses_l1 := st.write_misses_l1 + 1,
                    accesses_vc := st.accesses_vc + 1 }).2.1).2.2 := by
  rw [l1Write_eq_vcMiss st hvc hf hpf]

theorem l1Write_eq_vcMiss_stats {sys : Sys} {a : Nat} (st : Stats) {vc : VictimCache}
    (hvc : sys.vc = some vc)
    (hf : (sys.l1.sets.getD (a / sys.l1.blockSize % numberOfSets sys.l1) []).find?
      (tagMatch (a / sys.l1.blockSize / numberOfSets sys.l1)) = none)
    (hpf : vc.blocks.find? (tagMatch (a / vc.blockSize)) = none) :
    (l1Write sys a st).2.1 =
      (l1Replace sys.l1 (some vc)
        (l2Read sys.l2 a
          { st with accesses := st.accesses + 1,
                    write_misses_l1 := st.write_misses_l1 + 1,
                    accesses_vc := st.accesses_vc + 1 }).1
        (a / sys.l1.blockSize / numberOfSets sys.l1)
        (a / sys.l1.blockSize % numberOfSets sys.l1) a true
        (l2Read sys.l2 a
          { st with accesses := st.accesses + 1,
                    write_misses_l1 := st.write_misses_l1 + 1,
                    accesses_vc := st.accesses_vc + 1 }).2.1).2.1 := by
  rw [l1Write_eq_vcMiss st hvc hf hpf]

theorem l1Write_eq_miss_log {sys : Sys} {a : Nat} (st : Stats)
    (hvc : sys.vc = none)
    (hf : (sys.l1.sets.getD (a / sys.l1.blockSize % numberOfSets sys.l1) []).find?
      (tagMatch (a / sys.l1.blockSize / numberOfSets sys.l1)) = none) :
    (l1Write sys a st).2.2 =
      Ev.fetch a :: (l2Read sys.l2 a
        { st with accesses := st.accesses + 1,
                  write_misses_l1 := st.write_misses_l1 + 1 }).2.2 ++
      (l1Replace sys.l1 none
        (l2Read sys.l2 a
          { st with accesses := st.accesses + 1,
                    write_misses_l1 := st.write_misses_l1 + 1 }).1
        (a / sys.l1.blockSize / numberOfSets sys.l1)
        (a / sys.l1.blockSize % numberOfSets sys.l1) a true
        (l2Read sys.l2 a
          { st with accesses := st.accesses + 1,
                    write_misses_l1 := st.write_misses_l1 + 1 }).2.1).2.2 := by
  rw [l1Write_eq_miss st hvc hf]

theorem l1Write_eq_miss_stats {sys : Sys} {a : Nat} (st : Stats)
    (hvc : sys.vc = none)
    (hf : (sys.l1.sets.getD (a / sys.l1.blockSize % numberOfSets sys.l1) []).find?
      (tagMatch (a / sys.l1.blockSize / numberOfSets sys.l1)) = none) :
    (l1Write sys a st).2.1 =
      (l1Replace sys.l1 none
        (l2Read sys.l2 a
          { st with accesses := st.accesses + 1,
                    write_misses_l1 := st.write_misses_l1 + 1 }).1
        (a / sys.l1.blockSize / numberOfSets sys.l1)
        (a / sys.l1.blockSize % numberOfSets sys.l1) a true
        (l2Read sys.l2 a
          { st with accesses := st.accesses + 1,
                    write_misses_l1 := st.write_misses_l1 + 1 }).2.1).2.1 := by
  rw [l1Write_eq_miss st hvc hf]


theorem l1Read_eq_vcMiss_state {sys : Sys} {a : Nat} (st : Stats) {vc : VictimCache}
    (hvc : sys.vc = some vc)
    (hf : (sys.l1.sets.getD (a / sys.l1.blockSize % numberOfSets sys.l1) []).find?
      (tagMatch (a / sys.l1.blockSize / numberOfSets sys.l1)) = none)
    (hpf : vc.blocks.find? (tagMatch (a / vc.blockSize)) = none) :
    (l1Read sys a st).1 =
      (l1Replace sys.l1 (some vc)
        (l2Read sys.l2 a
          { st with accesses := st.accesses + 1,
                    read_misses_l1 := st.read_misses_l1 + 1,
                    accesses_vc := st.accesses_vc + 1 }).1
        (a / sys.l1.blockSize / numberOfSets sys.l1)
        (a / sys.l1.blockSize % numberOfSets sys.l1) a false
        (l2Read sys.l2 a
          { st with accesses := st.accesses + 1,
                    read_misses_l1 := st.read_misses_l1 + 1,
                    accesses_vc := st.accesses_vc + 1 }).2.1).1 := by
  rw [l1Read_eq_vcMiss st hvc hf hpf]

theorem l1Read_eq_miss_state {sys : Sys} {a : Nat} (st : Stats)
    (hvc : sys.vc = none)
    (hf : (sys.l1.sets.getD (a / sys.l1.blockSize % numberOfSets sys.l1) []).find?
      (tagMatch (a / sys.l1.blockSize / numberOfSets sys.l1)) = none) :
    (l1Read sys a st).1 =
      (l1Replace sys.l1 none
        (l2Read sys.l2 a
          { st with accesses := st.accesses + 1,
                    read_misses_l1 := st.read_misses_l1 + 1 }).1
        (a / sys.l1.blockSize / numberOfSets sys.l1)
        (a / sys.l1.blockSize % numberOfSets sys.l1) a false
        (l2Read sys.l2 a
          { st with accesses := st.accesses + 1,
                    read_misses_l1 := st.read_misses_l1 + 1 }).2.1).1 := by
  rw [l1Read_eq_miss st hvc hf]

theorem l1Write_eq_vcMiss_state {sys : Sys} {a : Nat} (st : Stats) {vc : VictimCache}
    (hvc : sys.vc = some vc)
    (hf : (sys.l1.sets.getD (a / sys.l1.blockSize % numberOfSets sys.l1) []).find?
      (tagMatch (a / sys.l1.blockSize / numberOfSets sys.l1)) = none)
    (hpf : vc.blocks.find? (tagMatch (a / vc.blockSize)) = none) :
    (l1Write sys a st).1 =
      (l1Replace sys.l1 (some vc)
        (l2Read sys.l2 a
          { st with accesses := st.accesses + 1,
                    write_misses_l1 := st.write_misses_l1 + 1,
                    accesses_vc := st.accesses_vc + 1 }).1
        (a / sys.l1.blockSize / numberOfSets sys.l1)
        (a / sys.l1.blockSize % numberOfSets sys.l1) a true
        (l2Read sys.l2 a
          { st with accesses := st.accesses + 1,
                    write_misses_l1 := st.write_misses_l1 + 1,
                    accesses_vc := st.accesses_vc + 1 }).2.1).1 := by
  rw [l1Write_eq_vcMiss st hvc hf hpf]

theorem l1Write_eq_miss_state {sys : Sys} {a : Nat} (st : Stats)
    (hvc : sys.vc = none)
    (hf : (sys.l1.sets.getD (a / sys.l1.blockSize % numberOfSets sys.l1) []).find?
      (tagMatch (a / sys.l1.blockSize / numberOfSets sys.l1)) = none) :
    (l1Write sys a st).1 =
      (l1Replace sys.l1 none
        (l2Read sys.l2 a
          { st with accesses := st.accesses + 1,
                    write_misses_l1 := st.write_misses_l1 + 1 }).1
        (a / sys.l1.blockSize / numberOfSets sys.l1)
        (a / sys.l1.blockSize % numberOfSets sys.l1) a true
        (l2Read sys.l2 a
          { st with accesses := st.accesses + 1,
                    write_misses_l1 := st.write_misses_l1 + 1 }).2.1).1 := by
  rw [l1Write_eq_miss st hvc hf]

/-! ### Claim C2: eager write-back ordering -/

/-- Within one `l1Replace`, the only L1 eviction event is the popped LRU
block, and when it is dirty the write-back write to L2 immediately
follows the eviction and precedes the insertion of the new line. -/
theorem l1Replace_evict_dirty (c : Cache) (vcOpt : Option VictimCache) (l2 : Cache)
    (tg idx a : Nat) (nd : Bool) (st : Stats) (b : Block)
    (hmem : Ev.evict true b ∈ (l1Replace c vcOpt l2 tg idx a nd st).2.2) :
    b = (c.sets.getD idx []).getLastD emptyBlock ∧
    (b.dirty = true →
      (l1Replace c vcOpt l2 tg idx a nd st).2.1.write_back_l1 = st.write_back_l1 + 1 ∧
      ∃ mid nb, (l1Replace c vcOpt l2 tg idx a nd st).2.2 =
        Ev.evict true b :: Ev.wbWrite b.address :: mid ++ [Ev.line true nb]) := by
  rw [l1Replace_log] at hmem
  have hb : b = (c.sets.getD idx []).getLastD emptyBlock := by
    rcases List.mem_cons.mp hmem with heq | hmem'
    · cases heq
      rfl
    · exfalso
      rcases List.mem_append.mp hmem' with h1 | h2
      · rcases List.mem_append.mp h1 with h3 | h4
        · revert h3
          split
          · intro h3
            rcases List.mem_cons.mp h3 with heq | h5
            · cases heq
            · rcases l2Write_log _ _ _ _ _ h5 with ⟨bb, heq⟩ | ⟨bb, heq⟩ <;> cases heq
          · intro h3
            cases h3
        · rcases vcOpt with _ | vc
          · cases h4
          · by_cases hbv : ((c.sets.getD idx []).getLastD emptyBlock).valid = true
            · rw [if_pos hbv] at h4
              cases List.mem_singleton.mp h4
            · rw [if_neg hbv] at h4
              cases List.mem_singleton.mp h4
      · cases List.mem_singleton.mp h2
  subst hb
  refine ⟨rfl, ?_⟩
  intro hd
  constructor
  · rw [l1Replace_stats]
    simp only [hd]
    have hfr := l2Write_stats l2 ((c.sets.getD idx []).getLastD emptyBlock).address true
      { st with write_back_l1 := st.write_back_l1 + 1 }
    exact hfr.2.2.2.2.2.2.1
  · refine ⟨(l2Write l2 ((c.sets.getD idx []).getLastD emptyBlock).address true
        { st with write_back_l1 := st.write_back_l1 + 1 }).2.2 ++
      (match vcOpt with
       | some vc =>
          if ((c.sets.getD idx []).getLastD emptyBlock).valid then
            [Ev.vcPut ((c.sets.getD idx []).getLastD emptyBlock)]
          else [Ev.vcPad]
       | none => []), ⟨true, nd, tg, a⟩, ?_⟩
    rw [l1Replace_log]
    simp only [hd]
    simp [List.append_assoc]
    cases vcOpt <;> rfl

theorem l1Read_c2 (sys : Sys) (a : Nat) (st : Stats) (b : Block)
    (hmem : Ev.evict true b ∈ (l1Read sys a st).2.2) (hd : b.dirty = true) :
    (l1Read sys a st).2.1.write_back_l1 = st.write_back_l1 + 1 ∧
    ∃ pre mid nb, (l1Read sys a st).2.2 =
      pre ++ Ev.evict true b :: Ev.wbWrite b.address :: mid ++ [Ev.line true nb] := by
  cases hf : (sys.l1.sets.getD (a / sys.l1.blockSize % numberOfSets sys.l1) []).find?
      (tagMatch (a / sys.l1.blockSize / numberOfSets sys.l1)) with
  | some bb =>
    rw [l1Read_eq_hit st hf] at hmem
    cases hmem
  | none =>
    cases hvcs : sys.vc with
    | some vc =>
      cases hpf : vc.blocks.find? (tagMatch (a / vc.blockSize)) with
      | some e =>
        rw [l1Read_eq_vcHit st hvcs hf hpf] at hmem ⊢
        obtain ⟨hb, hrest⟩ := l1Replace_evict_dirty _ _ _ _ _ _ _ _ _ hmem
        obtain ⟨hstat, mid, nb, hlog⟩ := hrest hd
        exact ⟨hstat, [], mid, nb, hlog⟩
      | none =>
        rw [l1Read_eq_vcMiss_log st hvcs hf hpf] at hmem
        rcases List.mem_append.mp hmem with h0 | h3
        · exfalso
          rcases List.mem_cons.mp h0 with heq | h2
          · cases heq
          · exact absurd (l2Read_log _ _ _ _ h2)
              (by rintro (⟨c', heq⟩ | ⟨c', heq⟩) <;> cases heq)
        obtain ⟨hb, hrest⟩ := l1Replace_evict_dirty _ _ _ _ _ _ _ _ _ h3
        obtain ⟨hstat, mid, nb, hlog⟩ := hrest hd
        refine ⟨?_, Ev.fetch a :: (l2Read sys.l2 a
            { st with accesses := st.accesses + 1,
                      read_misses_l1 := st.read_misses_l1 + 1,
                      accesses_vc := st.accesses_vc + 1 }).2.2, mid, nb, ?_⟩
        · rw [l1Read_eq_vcMiss_stats st hvcs hf hpf, hstat]
          have hl2 := l2Read_stats sys.l2 a
            { st with accesses := st.accesses + 1,
                      read_misses_l1 := st.read_misses_l1 + 1,
                      accesses_vc := st.accesses_vc + 1 }
          rw [hl2.2.2.2.2.2.2.1]
        · rw [l1Read_eq_vcMiss_log st hvcs hf hpf, hlog]
          simp [List.append_assoc]
    | none =>
      rw [l1Read_eq_miss_log st hvcs hf] at hmem
      rcases List.mem_append.mp hmem with h0 | h3
      · exfalso
        rcases List.mem_cons.mp h0 with heq | h2
        · cases heq
        · exact absurd (l2Read_log _ _ _ _ h2)
            (by rintro (⟨c', heq⟩ | ⟨c', heq⟩) <;> cases heq)
      obtain ⟨hb, hrest⟩ := l1Replace_evict_dirty _ _ _ _ _ _ _ _ _ h3
      obtain ⟨hstat, mid, nb, hlog⟩ := hrest hd
      refine ⟨?_, Ev.fetch a :: (l2Read sys.l2 a
          { st with accesses := st.accesses + 1,
                    read_misses_l1 := st.read_misses_l1 + 1 }).2.2, mid, nb, ?_⟩
      · rw [l1Read_eq_miss_stats st hvcs hf, hstat]
        have hl2 := l2Read_stats sys.l2 a
          { st with accesses := st.accesses + 1,
                    read_misses_l1 := st.read_misses_l1 + 1 }
        rw [hl2.2.2.2.2.2.2.1]
      · rw [l1Read_eq_miss_log st hvcs hf, hlog]
        simp [List.append_assoc]

theorem l1Write_c2 (sys : Sys) (a : Nat) (st : Stats) (b : Block)
    (hmem : Ev.evict true b ∈ (l1Write sys a st).2.2) (hd : b.dirty = true) :
    (l1Write sys a st).2.1.write_back_l1 = st.write_back_l1 + 1 ∧
    ∃ pre mid nb, (l1Write sys a st).2.2 =
      pre ++ Ev.evict true b :: Ev.wbWrite b.address :: mid ++ [Ev.line true nb] := by
  cases hf : (sys.l1.sets.getD (a / sys.l1.blockSize % numberOfSets sys.l1) []).find?
      (tagMatch (a / sys.l1.blockSize / numberOfSets sys.l1)) with
  | some bb =>
    rw [l1Write_eq_hit st hf] at hmem
    cases hmem
  | none =>
    cases hvcs : sys.vc with
    | some vc =>
      cases hpf : vc.blocks.find? (tagMatch (a / vc.blockSize)) with
      | some e =>
        rw [l1Write_eq_vcHit st hvcs hf hpf] at hmem ⊢
        obtain ⟨hb, hrest⟩ := l1Replace_evict_dirty _ _ _ _ _ _ _ _ _ hmem
        obtain ⟨hstat, mid, nb, hlog⟩ := hrest hd
        exact ⟨hstat, [], mid, nb, hlog⟩
      | none =>
        rw [l1Write_eq_vcMiss_log st hvcs hf hpf] at hmem
        rcases List.mem_append.mp hmem with h0 | h3
        · exfalso
          rcases List.mem_cons.mp h0 with heq | h2
          · cases heq
          · exact absurd (l2Read_log _ _ _ _ h2)
              (by rintro (⟨c', heq⟩ | ⟨c', heq⟩) <;> cases heq)
        obtain ⟨hb, hrest⟩ := l1Replace_evict_dirty _ _ _ _ _ _ _ _ _ h3
        obtain ⟨hstat, mid, nb, hlog⟩ := hrest hd
        refine ⟨?_, Ev.fetch a :: (l2Read sys.l2 a
            { st with accesses := st.accesses + 1,
                      write_misses_l1 := st.write_misses_l1 + 1,
                      accesses_vc := st.accesses_vc + 1 }).2.2, mid, nb, ?_⟩
        · rw [l1Write_eq_vcMiss_stats st hvcs hf hpf, hstat]
          have hl2 := l2Read_stats sys.l2 a
            { st with accesses := st.accesses + 1,
                      write_misses_l1 := st.write_misses_l1 + 1,
                      accesses_vc := st.accesses_vc + 1 }
          rw [hl2.2.2.2.2.2.2.1]
        · rw [l1Write_eq_vcMiss_log st hvcs hf hpf, hlog]
          simp [List.append_assoc]
    | none =>
      rw [l1Write_eq_miss_log st hvcs hf] at hmem
      rcases List.mem_append.mp hmem with h0 | h3
      · exfalso
        rcases List.mem_cons.mp h0 with heq | h2
        · cases heq
        · exact absurd (l2Read_log _ _ _ _ h2)
            (by rintro (⟨c', heq⟩ | ⟨c', heq⟩) <;> cases heq)
      obtain ⟨hb, hrest⟩ := l1Replace_evict_dirty _ _ _ _ _ _ _ _ _ h3
      obtain ⟨hstat, mid, nb, hlog⟩ := hrest hd
      refine ⟨?_, Ev.fetch a :: (l2Read sys.l2 a
          { st with accesses := st.accesses + 1,
                    write_misses_l1 := st.write_misses_l1 + 1 }).2.2, mid, nb, ?_⟩
      · rw [l1Write_eq_miss_stats st hvcs hf, hstat]
        have hl2 := l2Read_stats sys.l2 a
          { st with accesses := st.accesses + 1,
                    write_misses_l1 := st.write_misses_l1 + 1 }
        rw [hl2.2.2.2.2.2.2.1]
      · rw [l1Write_eq_miss_log st hvcs hf, hlog]
        simp [List.append_assoc]

/-- C2: for every read or write operation, whenever the evicted LRU
block at L1 is dirty (L1 is the only level with a next level), the
write-back counter is incremented and the L2 write at the evicted
address is issued immediately after the eviction and before the new
line is inserted; L2 operations, having no next level, never issue a
write to a further level. -/
theorem C2_eager_write_back (sys : Sys) (a : Nat) (st : Stats) (b : Block) :
    (Ev.evict true b ∈ (l1Read sys a st).2.2 → b.dirty = true →
      (l1Read sys a st).2.1.write_back_l1 = st.write_back_l1 + 1 ∧
      ∃ pre mid nb, (l1Read sys a st).2.2 =
        pre ++ Ev.evict true b :: Ev.wbWrite b.address :: mid ++ [Ev.line true nb]) ∧
    (Ev.evict true b ∈ (l1Write sys a st).2.2 → b.dirty = true →
      (l1Write sys a st).2.1.write_back_l1 = st.write_back_l1 + 1 ∧
      ∃ pre mid nb, (l1Write sys a st).2.2 =
        pre ++ Ev.evict true b :: Ev.wbWrite b.address :: mid ++ [Ev.line true nb]) ∧
    (∀ c : Cache, ∀ e ∈ (l2Read c a st).2.2, isWbEv e = false) ∧
    (∀ c : Cache, ∀ wb : Bool, ∀ e ∈ (l2Write c a wb st).2.2, isWbEv e = false) := by
  refine ⟨l1Read_c2 sys a st b, l1Write_c2 sys a st b, ?_, ?_⟩
  · intro c e he
    rcases l2Read_log c a st e he with ⟨bb, rfl⟩ | ⟨bb, rfl⟩ <;> rfl
  · intro c wb e he
    rcases l2Write_log c a wb st e he with ⟨bb, rfl⟩ | ⟨bb, rfl⟩ <;> rfl

/-- Witness for C2: a state whose L1 holds dirty block 0 receives
`read 16`; the dirty eviction is immediately written back to L2. -/
theorem C2_eager_write_back_witness :
    Ev.evict true ⟨true, true, 0, 0⟩ ∈
      (l1Read (runTrace (setup_cache 4 4 0 0 8 4 0) Stats.zero [(true, 0)]).1 16
        (runTrace (setup_cache 4 4 0 0 8 4 0) Stats.zero [(true, 0)]).2.1).2.2 ∧
    (⟨true, true, 0, 0⟩ : Block).dirty = true ∧
    ((l1Read (runTrace (setup_cache 4 4 0 0 8 4 0) Stats.zero [(true, 0)]).1 16
        (runTrace (setup_cache 4 4 0 0 8 4 0) Stats.zero [(true, 0)]).2.1).2.1.write_back_l1 =
      (runTrace (setup_cache 4 4 0 0 8 4 0) Stats.zero [(true, 0)]).2.1.write_back_l1 + 1 ∧
     ∃ pre mid nb,
      (l1Read (runTrace (setup_cache 4 4 0 0 8 4 0) Stats.zero [(true, 0)]).1 16
        (runTrace (setup_cache 4 4 0 0 8 4 0) Stats.zero [(true, 0)]).2.1).2.2 =
        pre ++ Ev.evict true ⟨true, true, 0, 0⟩ ::
          Ev.wbWrite (⟨true, true, 0, 0⟩ : Block).address :: mid ++ [Ev.line true nb]) :=
  ⟨by decide, by decide,
    (C2_eager_write_back (runTrace (setup_cache 4 4 0 0 8 4 0) Stats.zero [(true, 0)]).1
      16 (runTrace (setup_cache 4 4 0 0 8 4 0) Stats.zero [(true, 0)]).2.1
      ⟨true, true, 0, 0⟩).1 (by decide) (by decide)⟩

/-! ### Address decomposition: frame and head lemmas (claim C5) -/

theorem l2Read_frame (c : Cache) (a : Nat) (st : Stats) (j : Nat)
    (hj : j ≠ a / c.blockSize % numberOfSets c) :
    (l2Read c a st).1.sets.getD j [] = c.sets.getD j [] := by
  cases hf : (c.sets.getD (a / c.blockSize % numberOfSets c) []).find?
      (tagMatch (a / c.blockSize / numberOfSets c)) with
  | some b =>
    simp only [l2Read, hf]
    exact getD_set_ne _ _ _ _ _ (fun he => hj he.symm)
  | none =>
    simp only [l2Read, hf]
    exact getD_set_ne _ _ _ _ _ (fun he => hj he.symm)

theorem l2Write_frame (c : Cache) (a : Nat) (wb : Bool) (st : Stats) (j : Nat)
    (hj : j ≠ a / c.blockSize % numberOfSets c) :
    (l2Write c a wb st).1.sets.getD j [] = c.sets.getD j [] := by
  cases hf : (c.sets.getD (a / c.blockSize % numberOfSets c) []).find?
      (tagMatch (a / c.blockSize / numberOfSets c)) with
  | some b =>
    simp only [l2Write, hf]
    exact getD_set_ne _ _ _ _ _ (fun he => hj he.symm)
  | none =>
    simp only [l2Write, hf]
    exact getD_set_ne _ _ _ _ _ (fun he => hj he.symm)

theorem l2Read_head (c : Cache) (a : Nat) (st : Stats)
    (hidx : a / c.blockSize % numberOfSets c < c.sets.length) :
    ∃ h t, (l2Read c a st).1.sets.getD (a / c.blockSize % numberOfSets c) [] = h :: t ∧
      h.valid = true ∧ h.tag = a / c.blockSize / numberOfSets c := by
  cases hf : (c.sets.getD (a / c.blockSize % numberOfSets c) []).find?
      (tagMatch (a / c.blockSize / numberOfSets c)) with
  | some b =>
    have hp := tagMatch_eq_true.mp (List.find?_some hf)
    refine ⟨b, listRemove b (c.sets.getD (a / c.blockSize % numberOfSets c) []),
      ?_, hp.1, hp.2⟩
    simp only [l2Read, hf]
    exact getD_set_self _ _ _ _ hidx
  | none =>
    refine ⟨⟨true, false, a / c.blockSize / numberOfSets c, a⟩,
      (c.sets.getD (a / c.blockSize % numberOfSets c) []).dropLast, ?_, rfl, rfl⟩
    simp only [l2Read, hf]
    exact getD_set_self _ _ _ _ hidx

theorem l2Write_head (c : Cache) (a : Nat) (wb : Bool) (st : Stats)
    (hidx : a / c.blockSize % numberOfSets c < c.sets.length) :
    ∃ h t, (l2Write c a wb st).1.sets.getD (a / c.blockSize % numberOfSets c) [] = h :: t ∧
      h.valid = true ∧ h.tag = a / c.blockSize / numberOfSets c := by
  cases hf : (c.sets.getD (a / c.blockSize % numberOfSets c) []).find?
      (tagMatch (a / c.blockSize / numberOfSets c)) with
  | some b =>
    have hp := tagMatch_eq_true.mp (List.find?_some hf)
    refine ⟨{ b with dirty := true },
      listRemove b (c.sets.getD (a / c.blockSize % numberOfSets c) []), ?_, hp.1, hp.2⟩
    simp only [l2Write, hf]
    exact getD_set_self _ _ _ _ hidx
  | none =>
    refine ⟨⟨true, true, a / c.blockSize / numberOfSets c, a⟩,
      (c.sets.getD (a / c.blockSize % numberOfSets c) []).dropLast, ?_, rfl, rfl⟩
    simp only [l2Write, hf]
    exact getD_set_self _ _ _ _ hidx

theorem l1Read_frame (sys : Sys) (a : Nat) (st : Stats) (j : Nat)
    (hj : j ≠ a / sys.l1.blockSize % numberOfSets sys.l1) :
    (l1Read sys a st).1.l1.sets.getD j [] = sys.l1.sets.getD j [] := by
  cases hf : (sys.l1.sets.getD (a / sys.l1.blockSize % numberOfSets sys.l1) []).find?
      (tagMatch (a / sys.l1.blockSize / numberOfSets sys.l1)) with
  | some b =>
    rw [l1Read_eq_hit st hf]
    exact getD_set_ne _ _ _ _ _ (fun he => hj he.symm)
  | none =>
    cases hvcs : sys.vc with
    | some vc =>
      cases hpf : vc.blocks.find? (tagMatch (a / vc.blockSize)) with
      | some e =>
        rw [l1Read_eq_vcHit st hvcs hf hpf, l1Replace_l1]
        exact getD_set_ne _ _ _ _ _ (fun he => hj he.symm)
      | none =>
        rw [l1Read_eq_vcMiss_state st hvcs hf hpf, l1Replace_l1]
        exact getD_set_ne _ _ _ _ _ (fun he => hj he.symm)
    | none =>
      rw [l1Read_eq_miss_state st hvcs hf, l1Replace_l1]
      exact getD_set_ne _ _ _ _ _ (fun he => hj he.symm)

theorem l1Write_frame (sys : Sys) (a : Nat) (st : Stats) (j : Nat)
    (hj : j ≠ a / sys.l1.blockSize % numberOfSets sys.l1) :
    (l1Write sys a st).1.l1.sets.getD j [] = sys.l1.sets.getD j [] := by
  cases hf : (sys.l1.sets.getD (a / sys.l1.blockSize % numberOfSets sys.l1) []).find?
      (tagMatch (a / sys.l1.blockSize / numberOfSets sys.l1)) with
  | some b =>
    rw [l1Write_eq_hit st hf]
    exact getD_set_ne _ _ _ _ _ (fun he => hj he.symm)
  | none =>
    cases hvcs : sys.vc with
    | some vc =>
      cases hpf : vc.blocks.find? (tagMatch (a / vc.blockSize)) with
      | some e =>
        rw [l1Write_eq_vcHit st hvcs hf hpf, l1Replace_l1]
        exact getD_set_ne _ _ _ _ _ (fun he => hj he.symm)
      | none =>
        rw [l1Write_eq_vcMiss_state st hvcs hf hpf, l1Replace_l1]
        exact getD_set_ne _ _ _ _ _ (fun he => hj he.symm)
    | none =>
      rw [l1Write_eq_miss_state st hvcs hf, l1Replace_l1]
      exact getD_set_ne _ _ _ _ _ (fun he => hj he.symm)

theorem l1Read_head (sys : Sys) (a : Nat) (st : Stats)
    (hidx : a / sys.l1.blockSize % numberOfSets sys.l1 < sys.l1.sets.length) :
    ∃ h t, (l1Read sys a st).1.l1.sets.getD
        (a / sys.l1.blockSize % numberOfSets sys.l1) [] = h :: t ∧
      h.valid = true ∧ h.tag = a / sys.l1.blockSize / numberOfSets sys.l1 := by
  cases hf : (sys.l1.sets.getD (a / sys.l1.blockSize % numberOfSets sys.l1) []).find?
      (tagMatch (a / sys.l1.blockSize / numberOfSets sys.l1)) with
  | some b =>
    have hp := tagMatch_eq_true.mp (List.find?_some hf)
    refine ⟨b, listRemove b (sys.l1.sets.getD
      (a / sys.l1.blockSize % numberOfSets sys.l1) []), ?_, hp.1, hp.2⟩
    rw [l1Read_eq_hit st hf]
    exact getD_set_self _ _ _ _ hidx
  | none =>
    cases hvcs : sys.vc with
    | some vc =>
      cases hpf : vc.blocks.find? (tagMatch (a / vc.blockSize)) with
      | some e =>
        refine ⟨⟨true, false, a / sys.l1.blockSize / numberOfSets sys.l1, a⟩,
          (sys.l1.sets.getD (a / sys.l1.blockSize % numberOfSets sys.l1) []).dropLast,
          ?_, rfl, rfl⟩
        rw [l1Read_eq_vcHit st hvcs hf hpf, l1Replace_l1]
        exact getD_set_self _ _ _ _ hidx
      | none =>
        refine ⟨⟨true, false, a / sys.l1.blockSize / numberOfSets sys.l1, a⟩,
          (sys.l1.sets.getD (a / sys.l1.blockSize % numberOfSets sys.l1) []).dropLast,
          ?_, rfl, rfl⟩
        rw [l1Read_eq_vcMiss_state st hvcs hf hpf, l1Replace_l1]
        exact getD_set_self _ _ _ _ hidx
    | none =>
      refine ⟨⟨true, false, a / sys.l1.blockSize / numberOfSets sys.l1, a⟩,
        (sys.l1.sets.getD (a / sys.l1.blockSize % numberOfSets sys.l1) []).dropLast,
        ?_, rfl, rfl⟩
      rw [l1Read_eq_miss_state st hvcs hf, l1Replace_l1]
      exact getD_set_self _ _ _ _ hidx

theorem l1Write_head (sys : Sys) (a : Nat) (st : Stats)
    (hidx : a / sys.l1.blockSize % numberOfSets sys.l1 < sys.l1.sets.length) :
    ∃ h t, (l1Write sys a st).1.l1.sets.getD
        (a / sys.l1.blockSize % numberOfSets sys.l1) [] = h :: t ∧
      h.valid = true ∧ h.tag = a / sys.l1.blockSize / numberOfSets sys.l1 := by
  cases hf : (sys.l1.sets.getD (a / sys.l1.blockSize % numberOfSets sys.l1) []).find?
      (tagMatch (a / sys.l1.blockSize / numberOfSets sys.l1)) with
  | some b =>
    have hp := tagMatch_eq_true.mp (List.find?_some hf)
    refine ⟨{ b with dirty := true }, listRemove b (sys.l1.sets.getD
      (a / sys.l1.blockSize % numberOfSets sys.l1) []), ?_, hp.1, hp.2⟩
    rw [l1Write_eq_hit st hf]
    exact getD_set_self _ _ _ _ hidx
  | none =>
    cases hvcs : sys.vc with
    | some vc =>
      cases hpf : vc.blocks.find? (tagMatch (a / vc.blockSize)) with
      | some e =>
        refine ⟨⟨true, true, a / sys.l1.blockSize / numberOfSets sys.l1, a⟩,
          (sys.l1.sets.getD (a / sys.l1.blockSize % numberOfSets sys.l1) []).dropLast,
          ?_, rfl, rfl⟩
        rw [l1Write_eq_vcHit st hvcs hf hpf, l1Replace_l1]
        exact getD_set_self _ _ _ _ hidx
      | none =>
        refine ⟨⟨true, true, a / sys.l1.blockSize / numberOfSets sys.l1, a⟩,
          (sys.l1.sets.getD (a / sys.l1.blockSize % numberOfSets sys.l1) []).dropLast,
          ?_, rfl, rfl⟩
        rw [l1Write_eq_vcMiss_state st hvcs hf hpf, l1Replace_l1]
        exact getD_set_self _ _ _ _ hidx
    | none =>
      refine ⟨⟨true, true, a / sys.l1.blockSize / numberOfSets sys.l1, a⟩,
        (sys.l1.sets.getD (a / sys.l1.blockSize % numberOfSets sys.l1) []).dropLast,
        ?_, rfl, rfl⟩
      rw [l1Write_eq_miss_state st hvcs hf, l1Replace_l1]
      exact getD_set_self _ _ _ _ hidx

/-! ### Claim C5 -/

/-- C5: for every address and every cache level, both read and write
decompose the address as `block_number = address / block_size`,
`index = block_number mod number_of_sets`,
`tag = block_number / number_of_sets` with
`number_of_sets = capacity / block_size / associativity`, and operate on
the set at that index: all other sets are untouched and the set at that
index ends with a valid front block carrying that tag. -/
theorem C5_address_decomposition (sys : Sys) (a : Nat) (st : Stats) :
    numberOfSets sys.l1 = sys.l1.cacheSize / sys.l1.blockSize / sys.l1.associativity ∧
    (∀ j, j ≠ a / sys.l1.blockSize % numberOfSets sys.l1 →
      (l1Read sys a st).1.l1.sets.getD j [] = sys.l1.sets.getD j [] ∧
      (l1Write sys a st).1.l1.sets.getD j [] = sys.l1.sets.getD j []) ∧
    (a / sys.l1.blockSize % numberOfSets sys.l1 < sys.l1.sets.length →
      (∃ h t, (l1Read sys a st).1.l1.sets.getD
          (a / sys.l1.blockSize % numberOfSets sys.l1) [] = h :: t ∧
        h.valid = true ∧ h.tag = a / sys.l1.blockSize / numberOfSets sys.l1) ∧
      (∃ h t, (l1Write sys a st).1.l1.sets.getD
          (a / sys.l1.blockSize % numberOfSets sys.l1) [] = h :: t ∧
        h.valid = true ∧ h.tag = a / sys.l1.blockSize / numberOfSets sys.l1)) ∧
    (∀ c : Cache, ∀ wb : Bool,
      (∀ j, j ≠ a / c.blockSize % numberOfSets c →
        (l2Read c a st).1.sets.getD j [] = c.sets.getD j [] ∧
        (l2Write c a wb st).1.sets.getD j [] = c.sets.getD j []) ∧
      (a / c.blockSize % numberOfSets c < c.sets.length →
        (∃ h t, (l2Read c a st).1.sets.getD (a / c.blockSize % numberOfSets c) [] =
            h :: t ∧ h.valid = true ∧ h.tag = a / c.blockSize / numberOfSets c) ∧
        (∃ h t, (l2Write c a wb st).1.sets.getD (a / c.blockSize % numberOfSets c) [] =
            h :: t ∧ h.valid = true ∧ h.tag = a / c.blockSize / numberOfSets c))) := by
  refine ⟨rfl, ?_, ?_, ?_⟩
  · intro j hj
    exact ⟨l1Read_frame sys a st j hj, l1Write_frame sys a st j hj⟩
  · intro hidx
    exact ⟨l1Read_head sys a st hidx, l1Write_head sys a st hidx⟩
  · intro c wb
    constructor
    · intro j hj
      exact ⟨l2Read_frame c a st j hj, l2Write_frame c a wb st j hj⟩
    · intro hidx
      exact ⟨l2Read_head c a st hidx, l2Write_head c a wb st hidx⟩

/-- Witness for C5 at a concrete configuration and address. -/
theorem C5_address_decomposition_witness :
    ((0 : Nat) ≠ 1 / (setup_cache 2 0 0 0 4 0 0).l1.blockSize %
        numberOfSets (setup_cache 2 0 0 0 4 0 0).l1 ∧
     (l1Read (setup_cache 2 0 0 0 4 0 0) 1 Stats.zero).1.l1.sets.getD 0 [] =
       (setup_cache 2 0 0 0 4 0 0).l1.sets.getD 0 []) ∧
    (1 / (setup_cache 2 0 0 0 4 0 0).l1.blockSize %
        numberOfSets (setup_cache 2 0 0 0 4 0 0).l1 <
        (setup_cache 2 0 0 0 4 0 0).l1.sets.length ∧
     ∃ h t, (l1Read (setup_cache 2 0 0 0 4 0 0) 1 Stats.zero).1.l1.sets.getD
        (1 / (setup_cache 2 0 0 0 4 0 0).l1.blockSize %
          numberOfSets (setup_cache 2 0 0 0 4 0 0).l1) [] = h :: t ∧
      h.valid = true ∧
      h.tag = 1 / (setup_cache 2 0 0 0 4 0 0).l1.blockSize /
        numberOfSets (setup_cache 2 0 0 0 4 0 0).l1) :=
  ⟨⟨by decide,
    ((C5_address_decomposition (setup_cache 2 0 0 0 4 0 0) 1 Stats.zero).2.1 0
      (by decide)).1⟩,
   ⟨by decide,
    ((C5_address_decomposition (setup_cache 2 0 0 0 4 0 0) 1 Stats.zero).2.2.1
      (by decide)).1⟩⟩

/-! ### Claim C7 -/

/-- When the selected set's front block is a valid match, `l1Read` hits:
only the access counter changes and the front block stays matching. -/
theorem l1Read_of_front (sys : Sys) (a : Nat) (st : Stats) {h : Block}
    {t : List Block}
    (hfront : sys.l1.sets.getD (a / sys.l1.blockSize % numberOfSets sys.l1) [] = h :: t)
    (hv : h.valid = true) (ht : h.tag = a / sys.l1.blockSize / numberOfSets sys.l1)
    (hidx : a / sys.l1.blockSize % numberOfSets sys.l1 < sys.l1.sets.length) :
    (l1Read sys a st).2.1 = { st with accesses := st.accesses + 1 } ∧
    ∃ t', (l1Read sys a st).1.l1.sets.getD
      (a / sys.l1.blockSize % numberOfSets sys.l1) [] = h :: t' := by
  have hf : (sys.l1.sets.getD (a / sys.l1.blockSize % numberOfSets sys.l1) []).find?
      (tagMatch (a / sys.l1.blockSize / numberOfSets sys.l1)) = some h := by
    rw [hfront]
    exact List.find?_cons_of_pos _ (by simp [tagMatch, hv, ht])
  rw [l1Read_eq_hit st hf]
  refine ⟨rfl, listRemove h (sys.l1.sets.getD
    (a / sys.l1.blockSize % numberOfSets sys.l1) []), ?_⟩
  exact getD_set_self _ _ _ _ hidx

theorem readsRepeat_invariant (sys0 : Sys) (a : Nat)
    (hlen0 : sys0.l1.sets.length = numberOfSets sys0.l1)
    (hns0 : 0 < numberOfSets sys0.l1) :
    ∀ n (p : Sys × Stats),
      p.1.l1.cacheSize = sys0.l1.cacheSize →
      p.1.l1.blockSize = sys0.l1.blockSize →
      p.1.l1.associativity = sys0.l1.associativity →
      p.1.l1.sets.length = sys0.l1.sets.length →
      (∃ h t, p.1.l1.sets.getD (a / sys0.l1.blockSize % numberOfSets sys0.l1) [] =
        h :: t ∧ h.valid = true ∧ h.tag = a / sys0.l1.blockSize / numberOfSets sys0.l1) →
      (readsRepeat a n p).2.read_misses_l1 = p.2.read_misses_l1 ∧
      (readsRepeat a n p).2.read_misses_l2 = p.2.read_misses_l2 := by
  intro n
  induction n with
  | zero =>
    intro p _ _ _ _ _
    exact ⟨rfl, rfl⟩
  | succ k ih =>
    intro p hcs hbs has hsl hfr
    obtain ⟨h, t, hfront, hv, ht⟩ := hfr
    have hnseq : numberOfSets p.1.l1 = numberOfSets sys0.l1 := by
      unfold numberOfSets
      rw [hcs, hbs, has]
    have hie : a / p.1.l1.blockSize % numberOfSets p.1.l1 =
        a / sys0.l1.blockSize % numberOfSets sys0.l1 := by
      rw [hbs, hnseq]
    have hte : a / p.1.l1.blockSize / numberOfSets p.1.l1 =
        a / sys0.l1.blockSize / numberOfSets sys0.l1 := by
      rw [hbs, hnseq]
    have hfront' : p.1.l1.sets.getD
        (a / p.1.l1.blockSize % numberOfSets p.1.l1) [] = h :: t := by
      rw [hie]
      exact hfront
    have ht' : h.tag = a / p.1.l1.blockSize / numberOfSets p.1.l1 := by
      rw [hte]
      exact ht
    have hidx' : a / p.1.l1.blockSize % numberOfSets p.1.l1 < p.1.l1.sets.length := by
      rw [hie, hsl, hlen0]
      exact Nat.mod_lt _ hns0
    obtain ⟨hstats, t', hfront2⟩ := l1Read_of_front p.1 a p.2 hfront' hv ht' hidx'
    have hgeom := l1Read_geom p.1 a p.2
    have hstep := ih ((l1Read p.1 a p.2).1, (l1Read p.1 a p.2).2.1)
      (hgeom.1.trans hcs) (hgeom.2.1.trans hbs) (hgeom.2.2.1.trans has)
      (hgeom.2.2.2.1.trans hsl)
      ⟨h, t', by rw [← hie]; exact hfront2, hv, ht⟩
    show (readsRepeat a k ((l1Read p.1 a p.2).1, (l1Read p.1 a p.2).2.1)).2.read_misses_l1 =
        p.2.read_misses_l1 ∧
      (readsRepeat a k ((l1Read p.1 a p.2).1, (l1Read p.1 a p.2).2.1)).2.read_misses_l2 =
        p.2.read_misses_l2
    rw [hstep.1, hstep.2, hstats]
    exact ⟨rfl, rfl⟩

/-- C7: from any state with a positive set count and a full sets array,
after `read a`, any number of further reads of `a` leave the read-miss
counters (of both levels) unchanged: the block promoted to the front by
the first read is still resident and matches. -/
theorem C7_repeated_reads_no_miss (sys : Sys) (a : Nat) (st : Stats)
    (hlen : sys.l1.sets.length = numberOfSets sys.l1)
    (hns : 0 < numberOfSets sys.l1) (n : Nat) :
    (readsRepeat a n ((l1Read sys a st).1, (l1Read sys a st).2.1)).2.read_misses_l1 =
      (l1Read sys a st).2.1.read_misses_l1 ∧
    (readsRepeat a n ((l1Read sys a st).1, (l1Read sys a st).2.1)).2.read_misses_l2 =
      (l1Read sys a st).2.1.read_misses_l2 := by
  have hidx : a / sys.l1.blockSize % numberOfSets sys.l1 < sys.l1.sets.length := by
    rw [hlen]
    exact Nat.mod_lt _ hns
  have hgeom := l1Read_geom sys a st
  obtain ⟨h, t, hfront, hv, ht⟩ := l1Read_head sys a st hidx
  exact readsRepeat_invariant sys a hlen hns n
    ((l1Read sys a st).1, (l1Read sys a st).2.1)
    hgeom.1 hgeom.2.1 hgeom.2.2.1 hgeom.2.2.2.1 ⟨h, t, hfront, hv, ht⟩

/-- Witness for C7 at a concrete configuration. -/
theorem C7_repeated_reads_no_miss_witness :
    (setup_cache 2 0 0 0 4 0 0).l1.sets.length = numberOfSets (setup_cache 2 0 0 0 4 0 0).l1 ∧
    0 < numberOfSets (setup_cache 2 0 0 0 4 0 0).l1 ∧
    (readsRepeat 0 2 ((l1Read (setup_cache 2 0 0 0 4 0 0) 0 Stats.zero).1,
        (l1Read (setup_cache 2 0 0 0 4 0 0) 0 Stats.zero).2.1)).2.read_misses_l1 =
      (l1Read (setup_cache 2 0 0 0 4 0 0) 0 Stats.zero).2.1.read_misses_l1 :=
  ⟨by decide, by decide,
    (C7_repeated_reads_no_miss (setup_cache 2 0 0 0 4 0 0) 0 Stats.zero
      (by decide) (by decide) 2).1⟩

/-! ### Claim C6 -/

/-- C6 (amended): with a victim cache configured, an L1 read whose set
scan misses but whose victim-cache probe hits increments `victim_hits`
and issues no L2 read (no fetch event); the L2 access counter can change
only through the write-back of the dirty L1 block evicted in the same
operation — when that block is clean, `accesses_l2` is unchanged. -/
theorem C6_victim_hit_no_l2_read (sys : Sys) (a : Nat) (st : Stats)
    (vc : VictimCache) (e : Block)
    (hvc : sys.vc = some vc)
    (hf : (sys.l1.sets.getD (a / sys.l1.blockSize % numberOfSets sys.l1) []).find?
      (tagMatch (a / sys.l1.blockSize / numberOfSets sys.l1)) = none)
    (hpf : vc.blocks.find? (tagMatch (a / vc.blockSize)) = some e) :
    (l1Read sys a st).2.1.victim_hits = st.victim_hits + 1 ∧
    (∀ x, Ev.fetch x ∉ (l1Read sys a st).2.2) ∧
    (((sys.l1.sets.getD (a / sys.l1.blockSize % numberOfSets sys.l1)
        []).getLastD emptyBlock).dirty = false →
      (l1Read sys a st).2.1.accesses_l2 = st.accesses_l2) := by
  refine ⟨?_, ?_, ?_⟩
  · rw [l1Read_eq_vcHit st hvc hf hpf, l1Replace_stats]
    split
    · rw [(l2Write_stats _ _ _ _).2.2.2.2.2.2.2]
    · rfl
  · intro x hx
    rw [l1Read_eq_vcHit st hvc hf hpf, l1Replace_log] at hx
    rcases List.mem_cons.mp hx with heq | hx'
    · cases heq
    · rcases List.mem_append.mp hx' with h1 | h2
      · rcases List.mem_append.mp h1 with h3 | h4
        · revert h3
          split
          · intro h3
            rcases List.mem_cons.mp h3 with heq | h5
            · cases heq
            · rcases l2Write_log _ _ _ _ _ h5 with ⟨bb, heq⟩ | ⟨bb, heq⟩ <;> cases heq
          · intro h3
            cases h3
        · by_cases hbv : ((sys.l1.sets.getD
              (a / sys.l1.blockSize % numberOfSets sys.l1) []).getLastD
                emptyBlock).valid = true
          · rw [if_pos hbv] at h4
            cases List.mem_singleton.mp h4
          · rw [if_neg hbv] at h4
            cases List.mem_singleton.mp h4
      · cases List.mem_singleton.mp h2
  · intro hcl
    rw [l1Read_eq_vcHit st hvc hf hpf, l1Replace_stats]
    rw [if_neg (by rw [hcl]; simp)]

/-- Witness for C6 at a concrete clean scenario: after `read 0; read 16`
(one set, one block, victim cache of two), a further `read 0` hits the
victim cache and the L2 access counter stays put. -/
theorem C6_victim_hit_no_l2_read_witness :
    (runTrace (setup_cache 4 4 0 2 8 4 0) Stats.zero [(false, 0), (false, 16)]).1.vc =
      some ⟨2, 16, [⟨true, false, 0, 0⟩, ⟨false, false, 0, 0⟩]⟩ ∧
    ((runTrace (setup_cache 4 4 0 2 8 4 0) Stats.zero
        [(false, 0), (false, 16)]).1.l1.sets.getD
      (0 / (runTrace (setup_cache 4 4 0 2 8 4 0) Stats.zero
        [(false, 0), (false, 16)]).1.l1.blockSize %
        numberOfSets (runTrace (setup_cache 4 4 0 2 8 4 0) Stats.zero
          [(false, 0), (false, 16)]).1.l1) []).find?
      (tagMatch (0 / (runTrace (setup_cache 4 4 0 2 8 4 0) Stats.zero
        [(false, 0), (false, 16)]).1.l1.blockSize /
        numberOfSets (runTrace (setup_cache 4 4 0 2 8 4 0) Stats.zero
          [(false, 0), (false, 16)]).1.l1)) = none ∧
    (l1Read (runTrace (setup_cache 4 4 0 2 8 4 0) Stats.zero
        [(false, 0), (false, 16)]).1 0
      (runTrace (setup_cache 4 4 0 2 8 4 0) Stats.zero
        [(false, 0), (false, 16)]).2.1).2.1.victim_hits =
      (runTrace (setup_cache 4 4 0 2 8 4 0) Stats.zero
        [(false, 0), (false, 16)]).2.1.victim_hits + 1 ∧
    (l1Read (runTrace (setup_cache 4 4 0 2 8 4 0) Stats.zero
        [(false, 0), (false, 16)]).1 0
      (runTrace (setup_cache 4 4 0 2 8 4 0) Stats.zero
        [(false, 0), (false, 16)]).2.1).2.1.accesses_l2 =
      (runTrace (setup_cache 4 4 0 2 8 4 0) Stats.zero
        [(false, 0), (false, 16)]).2.1.accesses_l2 :=
  ⟨by decide, by decide,
    (C6_victim_hit_no_l2_read (runTrace (setup_cache 4 4 0 2 8 4 0) Stats.zero
        [(false, 0), (false, 16)]).1 0
      (runTrace (setup_cache 4 4 0 2 8 4 0) Stats.zero [(false, 0), (false, 16)]).2.1
      ⟨2, 16, [⟨true, false, 0, 0⟩, ⟨false, false, 0, 0⟩]⟩ ⟨true, false, 0, 0⟩
      (by decide) (by decide) (by decide)).1,
    (C6_victim_hit_no_l2_read (runTrace (setup_cache 4 4 0 2 8 4 0) Stats.zero
        [(false, 0), (false, 16)]).1 0
      (runTrace (setup_cache 4 4 0 2 8 4 0) Stats.zero [(false, 0), (false, 16)]).2.1
      ⟨2, 16, [⟨true, false, 0, 0⟩, ⟨false, false, 0, 0⟩]⟩ ⟨true, false, 0, 0⟩
      (by decide) (by decide) (by decide)).2.2 (by decide)⟩

/-- C6 counterexample: after `read 0; write 16` with a two-block victim
cache, the next `read 0` hits the victim cache (victim_hits goes from 0
to 1) yet the L2 access counter changes (2 to 3), because the dirty
block 16 evicted by the same access is written back to L2: the claim
that the event leaves the L2 access counter unchanged is false. -/
theorem C6_counterexample :
    (runTrace (setup_cache 4 4 0 2 8 4 0) Stats.zero
      [(false, 0), (true, 16)]).2.1.victim_hits = 0 ∧
    (runTrace (setup_cache 4 4 0 2 8 4 0) Stats.zero
      [(false, 0), (true, 16)]).2.1.accesses_l2 = 2 ∧
    (runTrace (setup_cache 4 4 0 2 8 4 0) Stats.zero
      [(false, 0), (true, 16), (false, 0)]).2.1.victim_hits = 1 ∧
    (runTrace (setup_cache 4 4 0 2 8 4 0) Stats.zero
      [(false, 0), (true, 16), (false, 0)]).2.1.accesses_l2 = 3 := by
  decide

/-! ### Claim C3 -/

/-- C3 (amended): `setup_cache` performs no validation and never fails:
for every configuration, valid or not, it constructs both caches
unconditionally; a non-integral set count is truncated by the integer
division `capacity / block_size / associativity` (possibly to zero
sets), and the victim cache exists exactly when `v` is nonzero. -/
theorem C3_no_validation (c1 b1 s1 v c2 b2 s2 : Nat) :
    (setup_cache c1 b1 s1 v c2 b2 s2).l1.sets.length = 2 ^ c1 / 2 ^ b1 / 2 ^ s1 ∧
    (setup_cache c1 b1 s1 v c2 b2 s2).l2.sets.length = 2 ^ c2 / 2 ^ b2 / 2 ^ s2 ∧
    ((setup_cache c1 b1 s1 v c2 b2 s2).vc = none ↔ v = 0) := by
  refine ⟨by simp [setup_cache, Cache.mk0], by simp [setup_cache, Cache.mk0], ?_, ?_⟩
  · intro h
    by_contra hv
    rw [show (setup_cache c1 b1 s1 v c2 b2 s2).vc =
      (if v == 0 then none else some (VictimCache.init v b1)) from rfl,
      if_neg (by simp [hv])] at h
    cases h
  · intro h
    subst h
    rfl

/-- C3 counterexample: the invalid configuration `c1=2, b1=2, s1=1`
(capacity 4 bytes, 4-byte blocks, associativity 2, so the associativity
does not divide capacity/block-size and the set count is non-integral)
is not rejected with any error: `setup_cache` constructs both caches,
L1 ending up with zero sets. -/
theorem C3_counterexample :
    (setup_cache 2 2 1 0 4 2 1).l1.sets.length = 0 ∧
    (setup_cache 2 2 1 0 4 2 1).l1.associativity = 2 ∧
    (setup_cache 2 2 1 0 4 2 1).l1.cacheSize / (setup_cache 2 2 1 0 4 2 1).l1.blockSize = 1 ∧
    (setup_cache 2 2 1 0 4 2 1).l2.sets.length = 2 := by
  decide

end CacheSim
